import Mathlib

/-!
Verification model of the `van` command/event bus and dependency-injection
resolver (package `van`; current implementation: `van.go` together with
`validate.go`).

The Go implementation is embedded shallowly:

* `reflect.Type` values become the inductive `Ty` (with `Fields` for struct
  field lists); Go type *kinds* (`reflect.Interface`, `reflect.Struct`,
  `reflect.Ptr`, ...) become `Ty.kind`.
* `reflect.Value` arguments become the inductive `Value`.
* The registries of the `Van` struct (providers, handlers, listeners) become
  association lists keyed by `Ty`; map assignment is modelled by prepending,
  and `lookupTy` returns the most recent binding, so re-registration
  overwrites exactly as a Go map assignment does.  Replacing a provider entry
  installs a fresh `providerOpts` value, so its singleton slot starts empty.
* The mutable runtime data — the singleton cache slots (`providerOpts.instance`)
  and the per-provider `sync.RWMutex` — become the explicit state `RState`,
  threaded through every operation.  `RState.locked` is the set of provider
  write locks held by the executing goroutine: re-acquiring a held
  `sync.RWMutex` in Go blocks forever, which the sequential model surfaces as
  the `RtErr.deadlock` outcome.
* Every execution of a provider constructor is recorded in `RState.log`, so
  "the constructor ran k times" is a statement about the final state.  A
  provider's user-written constructor is an arbitrary function of its resolved
  arguments and of its own execution index (the index models any state the
  user function closes over, e.g. returning an error on the first call and a
  value on the second).
* The unbounded recursion of `Van.resolve` / `Van.new` / `Van.buildStruct` is
  bounded by an explicit fuel parameter; exhausting the fuel yields the
  distinguished outcome `RtErr.outOfFuel`, which no terminating resolution
  reaches (any concrete run in this file uses ample fuel).
* Go `panic` during registration (`Provide`/`Handle`/`Subscribe` panic on a
  validation error) is modelled by `Except.error`: the registration helpers
  `registerProvider` / `registerHandler` / `registerListener` already return
  `error` in the source, and the exported wrappers merely `panic(err)`.
-/

namespace VanSpec

mutual

/-- Go types as classified by the resolver.  `context` is `context.Context`,
`errorT` is the `error` interface, `iface id` is a capability (interface)
type, `strct id fields` is a struct type (nominal id plus its visible fields),
`ptrTo t` is `*t`, and `other id` is any type of a different kind
(e.g. `int`). -/
inductive Ty where
  | context : Ty
  | errorT : Ty
  | iface (id : Nat) : Ty
  | strct (id : Nat) (fields : Fields) : Ty
  | ptrTo (t : Ty) : Ty
  | other (id : Nat) : Ty
  deriving DecidableEq, Repr

/-- The visible fields of a struct type, in `reflect.VisibleFields` order.
Each field carries its exported flag and its type; field names are irrelevant
to control flow and are omitted. -/
inductive Fields where
  | nil : Fields
  | cons (exported : Bool) (ty : Ty) (rest : Fields) : Fields
  deriving DecidableEq, Repr

end

/-- `reflect.Kind`, restricted to the kinds the code distinguishes. -/
inductive Kind where
  | interface | struct | ptr | otherKind
  deriving DecidableEq, Repr

/-- `reflect.Type.Kind()`.  `context.Context` and `error` are interface types
in Go; pointers (including `*Van`) have kind `Ptr`. -/
def Ty.kind : Ty → Kind
  | .context => .interface
  | .errorT => .interface
  | .iface _ => .interface
  | .strct _ _ => .struct
  | .ptrTo _ => .ptr
  | .other _ => .otherKind

/-- `typeVan = reflect.TypeOf((*Van)(nil))`: the pointer type `*Van`.
The struct id `0` is reserved for the `Van` struct itself. -/
def typeVan : Ty := .ptrTo (.strct 0 .nil)

/-- `t.Elem()` for pointer types. -/
def Ty.elem? : Ty → Option Ty
  | .ptrTo t => some t
  | _ => none

/-- `isStructPtr(t)`: `t.Kind() == reflect.Ptr && t.Elem().Kind() == reflect.Struct`. -/
def isStructPtr (t : Ty) : Bool :=
  t.kind = Kind.ptr &&
    (match t.elem? with
     | some e => e.kind = Kind.struct
     | none => false)

/-- Runtime values (`reflect.Value`).  `nilV` is the zero `reflect.Value`
left in any argument slot that no `resolve` case assigned; `ctxV` is the
caller-supplied context; `vanV` is the bus itself; `obj id stamp` is an
instance of capability `id` (the `stamp` distinguishes distinct constructor
results); `structV` is a struct value built field by field; `natV` is a plain
number, used for concrete command payload fields. -/
inductive Value where
  | nilV : Value
  | ctxV : Value
  | vanV : Value
  | natV (n : Nat) : Value
  | obj (id : Nat) (stamp : Nat) : Value
  | structV (fields : List Value) : Value

/-- One recorded execution of a provider constructor: the capability type it
was registered for, its execution index for that capability, and the
constructor's outcome (user errors are opaque `Nat` codes). -/
structure ExecEv where
  cap : Ty
  idx : Nat
  res : Except Nat Value

/-- Whether an execution event succeeded. -/
def ExecEv.isOk : ExecEv → Bool
  | ⟨_, _, .ok _⟩ => true
  | ⟨_, _, .error _⟩ => false

/-- Number of constructor executions recorded for capability `t`. -/
def countExec (t : Ty) : List ExecEv → Nat
  | [] => 0
  | e :: rest => (if e.cap = t then 1 else 0) + countExec t rest

/-- Number of successful constructor executions recorded for capability `t`. -/
def countOk (t : Ty) : List ExecEv → Nat
  | [] => 0
  | e :: rest => (if e.cap = t ∧ e.isOk then 1 else 0) + countOk t rest

/-- Association-list lookup keyed by `Ty`; the most recent (front) binding
wins, which models Go map assignment together with prepending on update. -/
def lookupTy {α : Type} : List (Ty × α) → Ty → Option α
  | [], _ => none
  | (k, v) :: rest, t => if k = t then some v else lookupTy rest t

/-- The mutable runtime state of a `Van` bus:
`instances` are the populated singleton cache slots (`providerOpts.instance`),
`log` records every constructor execution, and `locked` is the set of
per-provider write locks (`providerOpts.Lock`) currently held by the
executing goroutine. -/
structure RState where
  instances : List (Ty × Value)
  log : List ExecEv
  locked : List Ty

/-- The state of a freshly constructed bus: no cached singletons, no
constructor executions, no held locks. -/
def initState : RState := ⟨[], [], []⟩

/-- Runtime errors returned by resolution / invocation
(`fmt.Errorf` values in the source, classified by their message):
* `invalidCmd` — "cmd must be a pointer to a struct";
* `invalidEvent` — "event must be a a struct";
* `noHandler t` — "no handlers found for type %s";
* `tooManyDeps` — "too many dependencies for ...";
* `resolveFailed t e` — "failed to resolve dependency %s: %w" (the provider
  error `e` wrapped with the capability type name `t`);
* `userErr e` — the error value returned by the handler itself;
* `nilProviderDeref t` — `b.providers[t]` is absent, so the source would
  dereference a nil `*providerOpts` (a Go runtime fault);
* `deadlock t` — the goroutine re-acquires the `RWMutex` of provider `t`
  that it already holds, which blocks forever in Go;
* `outOfFuel` — the model's recursion bound was exhausted. -/
inductive RtErr where
  | invalidCmd
  | invalidEvent
  | noHandler (t : Ty)
  | tooManyDeps
  | resolveFailed (t : Ty) (e : Nat)
  | userErr (e : Nat)
  | nilProviderDeref (t : Ty)
  | deadlock (t : Ty)
  | outOfFuel
  deriving DecidableEq, Repr

/-- Registration-time validation errors, classified by the source's error
messages:
* `tooManyArgs` — "... must have at most 16 arguments";
* `wrongNumOut` — wrong number of return values;
* `out0NotInterface` — "provider's first return value must be an interface";
* `outNotError` — a return value required to implement `error` does not;
* `tooFewArgs` — "handler must have at least 2 arguments";
* `arg0NotContext` — "handler's first argument must be context.Context";
* `arg1NotStructPtr` — "handler's second argument must be a struct pointer";
* `arg1NotStruct` — "handler's second argument must be a struct";
* `listenerHasReturn` — "event handler should not have any return values";
* `badDepArg i` — "argument i must be an interface, struct or *van.Van";
* `unexportedField` — "field %s must be exported";
* `fieldNotInterface` — "field %s must be an interface";
* `selfDependency` — "provider function has a dependency of the same type";
* `singletonTakesContext` — "singleton providers cannot use Context as a dependency";
* `singletonDepTakesContext` — "singleton providers cannot depend on providers that take Context";
* `noProviderFor t` — "no providers registered for type %s";
* `cmdNotStruct` / `cmdTypeMismatch` / `eventNotStruct` / `eventTypeMismatch`
  — the corresponding handler/listener registration checks. -/
inductive ValErr where
  | tooManyArgs
  | wrongNumOut
  | out0NotInterface
  | outNotError
  | tooFewArgs
  | arg0NotContext
  | arg1NotStructPtr
  | arg1NotStruct
  | listenerHasReturn
  | badDepArg (i : Nat)
  | unexportedField
  | fieldNotInterface
  | selfDependency
  | singletonTakesContext
  | singletonDepTakesContext
  | noProviderFor (t : Ty)
  | cmdNotStruct
  | cmdTypeMismatch
  | eventNotStruct
  | eventTypeMismatch
  deriving DecidableEq, Repr

/-- `MaxArgs` is the maximum number of arguments (dependencies) a function can
have (`const MaxArgs = 16` in the source). -/
def MaxArgs : Nat := 16

/-- A Go function type as seen through reflection: its parameter types
(`In(0..NumIn-1)`) and its return types (`Out(0..NumOut-1)`).  Candidates
passed to the validators are always functions in the scenarios modelled here,
so the `t.Kind() != reflect.Func` branch of each validator cannot fire and is
not represented. -/
structure FuncTy where
  params : List Ty
  outs : List Ty
  deriving DecidableEq, Repr

/-- `validateDependencyStruct(t)`: every visible field must be exported and
must be an interface type.  The source iterates `reflect.VisibleFields(t)`;
the model receives that field list directly. -/
def validateDependencyStruct : Fields → Except ValErr Unit
  | .nil => .ok ()
  | .cons exported ty rest =>
    if ¬ exported then .error .unexportedField
    else if ty.kind ≠ Kind.interface then .error .fieldNotInterface
    else validateDependencyStruct rest

/-- The loop body of `validateDependencyArgs(t, start)`: walk the parameters
with their positions, skipping positions before `start`.  Interface kinds are
accepted; pointer kinds only if the type is exactly `*van.Van`; struct kinds
are checked with `validateDependencyStruct` (the source wraps the struct
error with the argument position; the underlying error is kept here); any
other kind is rejected. -/
def validateDepArgsLoop (start : Nat) : List Ty → Nat → Except ValErr Unit
  | [], _ => .ok ()
  | ty :: rest, i =>
    if i < start then validateDepArgsLoop start rest (i + 1)
    else
      match ty.kind with
      | .interface => validateDepArgsLoop start rest (i + 1)
      | .ptr =>
        if ty ≠ typeVan then .error (.badDepArg i)
        else validateDepArgsLoop start rest (i + 1)
      | .struct =>
        match ty with
        | .strct _ fs =>
          match validateDependencyStruct fs with
          | .error e => .error e
          | .ok _ => validateDepArgsLoop start rest (i + 1)
        | _ => .error (.badDepArg i)
      | .otherKind => .error (.badDepArg i)

/-- `validateDependencyArgs(t, start)`. -/
def validateDependencyArgs (t : FuncTy) (start : Nat) : Except ValErr Unit :=
  validateDepArgsLoop start t.params 0

/-- `validateProviderSignature(t)`: at most `MaxArgs` parameters, exactly two
return values, the first an interface, the second implementing `error`
(modelled as being the `error` type), then the dependency-argument check from
position 0. -/
def validateProviderSignature (t : FuncTy) : Except ValErr Unit :=
  if t.params.length > MaxArgs then .error .tooManyArgs
  else
    match t.outs with
    | [o0, o1] =>
      if o0.kind ≠ Kind.interface then .error .out0NotInterface
      else if o1 ≠ Ty.errorT then .error .outNotError
      else validateDependencyArgs t 0
    | _ => .error .wrongNumOut

/-- `validateHandlerSignature(t)`: at least 2 and at most `MaxArgs`
parameters, first parameter exactly `context.Context`, second a struct
pointer, exactly one return value implementing `error`, then the
dependency-argument check from position 2. -/
def validateHandlerSignature (t : FuncTy) : Except ValErr Unit :=
  if t.params.length < 2 then .error .tooFewArgs
  else if t.params.length > MaxArgs then .error .tooManyArgs
  else
    match t.params with
    | p0 :: p1 :: _ =>
      if p0 ≠ Ty.context then .error .arg0NotContext
      else if ¬ isStructPtr p1 then .error .arg1NotStructPtr
      else
        match t.outs with
        | [o0] =>
          if o0 ≠ Ty.errorT then .error .outNotError
          else validateDependencyArgs t 2
        | _ => .error .wrongNumOut
    | _ => .error .tooFewArgs

/-- `validateListenerSignature(t)`: at least 2 and at most `MaxArgs`
parameters, first parameter exactly `context.Context`, second of struct kind,
no return values, then the dependency-argument check from position 2. -/
def validateListenerSignature (t : FuncTy) : Except ValErr Unit :=
  if t.params.length < 2 then .error .tooFewArgs
  else if t.params.length > MaxArgs then .error .tooManyArgs
  else
    match t.params with
    | p0 :: p1 :: _ =>
      if p0 ≠ Ty.context then .error .arg0NotContext
      else if p1.kind ≠ Kind.struct then .error .arg1NotStruct
      else
        match t.outs with
        | [] => validateDependencyArgs t 2
        | _ :: _ => .error .listenerHasReturn
    | _ => .error .tooFewArgs

/-- `validateExecLambdaSignature(t)`: at most `MaxArgs` parameters, exactly
one return value implementing `error`, then the dependency-argument check
from position 0. -/
def validateExecLambdaSignature (t : FuncTy) : Except ValErr Unit :=
  if t.params.length > MaxArgs then .error .tooManyArgs
  else
    match t.outs with
    | [o0] =>
      if o0 ≠ Ty.errorT then .error .outNotError
      else validateDependencyArgs t 0
    | _ => .error .wrongNumOut

/-- A registered provider (`providerOpts`): the parameter types of its
constructor function, the constructor's behaviour (`fn args k` is the outcome
of the `k`-th execution for this capability, applied to the resolved
arguments `args`; the index models whatever state the user function closes
over), whether it is a singleton, and whether it (directly or through
interface dependencies) takes a context.  The mutable `instance` slot and the
`RWMutex` of the source struct live in `RState`, keyed by the same capability
type. -/
structure ProviderOpts where
  params : List Ty
  fn : List Value → Nat → Except Nat Value
  singleton : Bool
  takesContext : Bool

/-- A registered command handler: its reflected function type and its
behaviour.  `run args` receives the fully resolved argument list
(`args[0]` the context, `args[1]` the command payload, then dependencies) and
returns the payload as updated through the payload pointer, together with the
handler's returned error. -/
structure HandlerSpec where
  fnTy : FuncTy
  run : List Value → Value × Option Nat

/-- A registered event listener: its reflected function type.  Listeners in
the current implementation have no return values, so a listener call has no
observable outcome beyond having been made. -/
structure ListenerSpec where
  fnTy : FuncTy

/-- A provider candidate as passed to `Provide` / `ProvideSingleton`: its
reflected function type and its behaviour. -/
structure ProviderDecl where
  fnTy : FuncTy
  fn : List Value → Nat → Except Nat Value

/-- The `Van` struct: the three registries.  Go map assignment is modelled by
prepending (the front binding shadows older ones under `lookupTy`). -/
structure Van where
  providers : List (Ty × ProviderOpts)
  handlers : List (Ty × HandlerSpec)
  listeners : List (Ty × List ListenerSpec)

/-- `New()`: a bus with empty registries. -/
def Van.empty : Van := ⟨[], [], []⟩

mutual

/-- `Van.validateDependency(t)`: struct kinds are checked field by field
recursively; otherwise the type must have a registered provider or be
`*van.Van` or `context.Context`. -/
def Van.validateDependency (van : Van) : Ty → Except ValErr Unit
  | .strct _ fs => van.validateDependencyFields fs
  | t =>
    if (lookupTy van.providers t).isSome ∨ t = typeVan ∨ t = Ty.context then .ok ()
    else .error (.noProviderFor t)

/-- The field loop of `Van.validateDependency` on a struct type. -/
def Van.validateDependencyFields (van : Van) : Fields → Except ValErr Unit
  | .nil => .ok ()
  | .cons _ ty rest =>
    match van.validateDependency ty with
    | .error e => .error e
    | .ok _ => van.validateDependencyFields rest

end

/-- The per-parameter loop of `registerProvider`: for each parameter type,
reject a dependency on the produced type itself, validate the dependency,
then record whether the provider takes a context — directly (the parameter is
`context.Context`; rejected for singletons) or indirectly (the parameter has
a registered provider whose `takesContext` flag is set; rejected for
singletons).  Returns the accumulated `takesContext` flag. -/
def registerProviderLoop (van : Van) (retType : Ty) (singleton : Bool) :
    List Ty → Bool → Except ValErr Bool
  | [], tc => .ok tc
  | inType :: rest, tc =>
    if inType = retType then .error .selfDependency
    else
      match van.validateDependency inType with
      | .error e => .error e
      | .ok _ =>
        if inType = Ty.context then
          if singleton then .error .singletonTakesContext
          else registerProviderLoop van retType singleton rest true
        else
          match lookupTy van.providers inType with
          | some pp =>
            if pp.takesContext then
              if singleton then .error .singletonDepTakesContext
              else registerProviderLoop van retType singleton rest true
            else registerProviderLoop van retType singleton rest tc
          | none => registerProviderLoop van retType singleton rest tc

/-- `Van.registerProvider(provider, singleton)`: validate the signature,
compute the produced type (`Out(0)`), run the per-parameter loop, and store a
fresh `providerOpts` under the produced type (overwriting any previous
binding, with an empty singleton slot). -/
def Van.registerProvider (van : Van) (d : ProviderDecl) (singleton : Bool) :
    Except ValErr Van :=
  match validateProviderSignature d.fnTy with
  | .error e => .error e
  | .ok _ =>
    let retType := d.fnTy.outs.headD (Ty.other 0)
    match registerProviderLoop van retType singleton d.fnTy.params false with
    | .error e => .error e
    | .ok takesContext =>
      .ok { van with
              providers :=
                (retType, ⟨d.fnTy.params, d.fn, singleton, takesContext⟩)
                  :: van.providers }

/-- The dependency loop shared by `registerHandler` and `registerListener`:
`Van.validateDependency` on each parameter from position 2 on. -/
def Van.validateDepList (van : Van) : List Ty → Except ValErr Unit
  | [] => .ok ()
  | ty :: rest =>
    match van.validateDependency ty with
    | .error e => .error e
    | .ok _ => van.validateDepList rest

/-- `Van.registerHandler(cmd, handler)`: the command must be a struct, the
handler signature must validate, the handler's second parameter must point to
exactly the command type, each dependency from position 2 must validate, and
the handler is stored under the command type (overwriting any previous
binding, with no error). -/
def Van.registerHandler (van : Van) (cmdType : Ty) (h : HandlerSpec) :
    Except ValErr Van :=
  if cmdType.kind ≠ Kind.struct then .error .cmdNotStruct
  else
    match validateHandlerSignature h.fnTy with
    | .error e => .error e
    | .ok _ =>
      match (h.fnTy.params.getD 1 (Ty.other 0)).elem? with
      | some e1 =>
        if cmdType ≠ e1 then .error .cmdTypeMismatch
        else
          match van.validateDepList (h.fnTy.params.drop 2) with
          | .error e => .error e
          | .ok _ => .ok { van with handlers := (cmdType, h) :: van.handlers }
      | none => .error .cmdTypeMismatch

/-- `Van.registerListener(event, listener)`: the event must be a struct, the
listener signature must validate, the listener's second parameter must be
exactly the event type, each dependency from position 2 must validate, and
the listener is appended to the event's list (registration order). -/
def Van.registerListener (van : Van) (eventType : Ty) (l : ListenerSpec) :
    Except ValErr Van :=
  if eventType.kind ≠ Kind.struct then .error .eventNotStruct
  else
    match validateListenerSignature l.fnTy with
    | .error e => .error e
    | .ok _ =>
      if eventType ≠ l.fnTy.params.getD 1 (Ty.other 0) then .error .eventTypeMismatch
      else
        match van.validateDepList (l.fnTy.params.drop 2) with
        | .error e => .error e
        | .ok _ =>
          let old := (lookupTy van.listeners eventType).getD []
          .ok { van with listeners := (eventType, old ++ [l]) :: van.listeners }

/-- The struct-building loop of `Van.buildStruct(structType)`: construct a
fresh aggregate by obtaining, for every visible field in order, an instance of
the field's type via `b.new` (the capability-resolution path, passed in as
`ni`), aborting on the first error.  The caller wraps the collected field
values into the fresh struct value. -/
def buildStructWith (ni : RState → Ty → RState × Except RtErr Value) :
    RState → Fields → RState × Except RtErr (List Value)
  | st, .nil => (st, .ok [])
  | st, .cons _ ty rest =>
    match ni st ty with
    | (st', .error e) => (st', .error e)
    | (st', .ok v) =>
      match buildStructWith ni st' rest with
      | (st'', .error e) => (st'', .error e)
      | (st'', .ok vs) => (st'', .ok (v :: vs))

/-- The position-independent cases of the `Van.resolve` switch: type `*Van`
binds the bus itself; interface kinds go through `b.new`; struct kinds go
through `b.buildStruct`; anything else is left as the zero `reflect.Value`
(the switch `default`). -/
def resolveParamLater (ni : RState → Ty → RState × Except RtErr Value)
    (st : RState) (argType : Ty) : RState × Except RtErr Value :=
  if argType = typeVan then (st, .ok .vanV)
  else if argType.kind = Kind.interface then ni st argType
  else
    match argType with
    | .strct _ fs =>
      match buildStructWith ni st fs with
      | (st', .error e) => (st', .error e)
      | (st', .ok vs) => (st', .ok (.structV vs))
    | _ => (st, .ok .nilV)

/-- The full case-switch of `Van.resolve` for the parameter at position `i`
with declared type `argType`: position 0 of type `context.Context` binds the
caller's context; position 1 whose type equals the payload's dynamic type
(`reflect.TypeOf(cmd)`) binds the payload; the remaining cases are
`resolveParamLater`. -/
def resolveParamWith (ni : RState → Ty → RState × Except RtErr Value)
    (payload : Option (Ty × Value)) (st : RState) (i : Nat) (argType : Ty) :
    RState × Except RtErr Value :=
  if i = 0 ∧ argType = Ty.context then (st, .ok .ctxV)
  else
    match payload, i with
    | some (pt, pv), 1 =>
      if pt = argType then (st, .ok pv)
      else resolveParamLater ni st argType
    | _, _ => resolveParamLater ni st argType

/-- The parameter loop of `Van.resolve(ctx, cmd, funcType, args)`: fill each
argument slot in order, aborting on the first error. -/
def resolveArgsWith (ni : RState → Ty → RState × Except RtErr Value)
    (payload : Option (Ty × Value)) :
    RState → List Ty → Nat → RState × Except RtErr (List Value)
  | st, [], _ => (st, .ok [])
  | st, ty :: rest, i =>
    match resolveParamWith ni payload st i ty with
    | (st', .error e) => (st', .error e)
    | (st', .ok v) =>
      match resolveArgsWith ni payload st' rest (i + 1) with
      | (st'', .error e) => (st'', .error e)
      | (st'', .ok vs) => (st'', .ok (v :: vs))

/-- The construction body shared verbatim by the non-singleton branch of
`Van.new` and by `Van.newSingleton`: reject more than `MaxArgs` dependencies
("too many dependencies for provider %s"), resolve the provider's own
parameter list (the source guards this with `numIn > 0`, which only skips a
no-op when the list is empty), execute the constructor recording the
execution, wrap a constructor error with the capability type name, and — only
in the `newSingleton` caller (`setSlot = true`) — store a successful result
in the provider's instance slot. -/
def constructWith (ni : RState → Ty → RState × Except RtErr Value)
    (st : RState) (t : Ty) (p : ProviderOpts) (setSlot : Bool) :
    RState × Except RtErr Value :=
  if p.params.length > MaxArgs then (st, .error .tooManyDeps)
  else
    match resolveArgsWith ni none st p.params 0 with
    | (st₁, .error e) => (st₁, .error e)
    | (st₁, .ok args) =>
      let k := countExec t st₁.log
      match p.fn args k with
      | .error e =>
        ({ st₁ with log := st₁.log ++ [⟨t, k, .error e⟩] }, .error (.resolveFailed t e))
      | .ok v =>
        let st₂ : RState := { st₁ with log := st₁.log ++ [⟨t, k, .ok v⟩] }
        if setSlot then
          ({ st₂ with instances := (t, v) :: st₂.instances }, .ok v)
        else (st₂, .ok v)

/-- `Van.newSingleton(ctx, t)`: look the provider up again, take its write
lock (`provider.Lock()` — taken while already held by this goroutine, this
blocks forever, surfaced as `deadlock`), re-check the instance slot (another
caller may have raced ahead), and only if still empty run the construction
body with `setSlot = true`; the lock is released on every exit path
(`defer provider.Unlock()`). -/
def newSingletonWith (ni : RState → Ty → RState × Except RtErr Value)
    (providers : List (Ty × ProviderOpts)) (st : RState) (t : Ty) :
    RState × Except RtErr Value :=
  match lookupTy providers t with
  | none => (st, .error (.nilProviderDeref t))
  | some p =>
    if t ∈ st.locked then (st, .error (.deadlock t))
    else
      let st₀ : RState := { st with locked := t :: st.locked }
      let res :=
        match lookupTy st₀.instances t with
        | some v => (st₀, Except.ok v)
        | none => constructWith ni st₀ t p true
      ({ res.1 with locked := res.1.locked.erase t }, res.2)

/-- `Van.new(ctx, t)`: look up the provider (`b.providers[t]` is a nil map
read when absent, and the subsequent field access dereferences nil — a Go
runtime fault).  For a singleton, take the read lock (`provider.RLock()` —
taken while this goroutine holds the write lock, this blocks forever,
surfaced as `deadlock`), return the cached instance if present, and otherwise
fall through to `Van.newSingleton`.  For a non-singleton, run the
construction body directly with `setSlot = false`: no caching, every call
re-executes the constructor.  The first argument is the recursion fuel. -/
def Van.new (van : Van) : Nat → RState → Ty → RState × Except RtErr Value
  | 0, st, _ => (st, .error .outOfFuel)
  | fuel + 1, st, t =>
    match lookupTy van.providers t with
    | none => (st, .error (.nilProviderDeref t))
    | some p =>
      if p.singleton then
        if t ∈ st.locked then (st, .error (.deadlock t))
        else
          match lookupTy st.instances t with
          | some v => (st, .ok v)
          | none => newSingletonWith (van.new fuel) van.providers st t
      else constructWith (van.new fuel) st t p false

/-- `Van.resolve(ctx, cmd, funcType, args)` at a given fuel: the parameter
loop instantiated with `Van.new` as the capability-resolution path. -/
def Van.resolve (van : Van) (fuel : Nat) (payload : Option (Ty × Value))
    (st : RState) (params : List Ty) : RState × Except RtErr (List Value) :=
  resolveArgsWith (van.new fuel) payload st params 0

/-- `Van.Invoke(ctx, cmd)`: the payload must be a pointer to a struct; the
handler is looked up by the pointee type ("no handlers found for type %s" if
absent — an error value, not a panic); a handler with more than `MaxArgs`
parameters yields "too many dependencies for handler %s" without calling it;
otherwise the arguments are resolved (with the payload bound at position 1)
and the handler is called.  The returned triple is (state, the payload as
visible through the caller's pointer after the call, the call's error). -/
def Van.Invoke (van : Van) (fuel : Nat) (st : RState) (cmdType : Ty)
    (cmdVal : Value) : RState × Value × Option RtErr :=
  if cmdType.kind ≠ Kind.ptr then (st, cmdVal, some .invalidCmd)
  else
    match cmdType.elem? with
    | none => (st, cmdVal, some .invalidCmd)
    | some elemT =>
      if elemT.kind ≠ Kind.struct then (st, cmdVal, some .invalidCmd)
      else
        match lookupTy van.handlers elemT with
        | none => (st, cmdVal, some (.noHandler elemT))
        | some h =>
          if h.fnTy.params.length > MaxArgs then (st, cmdVal, some .tooManyDeps)
          else
            match van.resolve fuel (some (cmdType, cmdVal)) st h.fnTy.params with
            | (st₁, .error e) => (st₁, cmdVal, some e)
            | (st₁, .ok args) =>
              let r := h.run args
              (st₁, r.1, r.2.map RtErr.userErr)

/-- `Van.Publish(ctx, event)`: the event must be a struct ("event must be a a
struct" otherwise); if so, the bus increments its wait group, spawns
`processEvent` in a new goroutine, and returns `nil` immediately — a
fire-and-forget operation whose result never reflects listener outcomes.
`Van.processEvent` below is what the spawned goroutine executes. -/
def Van.Publish (_van : Van) (eventType : Ty) : Option RtErr :=
  if eventType.kind ≠ Kind.struct then some .invalidEvent
  else none

/-- What the `processEvent` goroutine logs for a listener it skips. -/
inductive PubLog where
  | tooManyDepsFor (i : Nat)
  | resolveFailedFor (i : Nat) (e : RtErr)
  deriving DecidableEq, Repr

/-- The listener loop of `Van.processEvent`: for each listener in order, a
listener with more than `MaxArgs` parameters is skipped with a log line
("van: too many dependencies for listener %s"); a dependency-resolution
failure is skipped with a log line ("van: failed to resolve dependencies for
%s: %s"); otherwise the listener is called (listeners return nothing, so a
call is recorded by its index).  Errors are only ever logged, never
returned. -/
def processListenersLoop (ni : RState → Ty → RState × Except RtErr Value)
    (payload : Option (Ty × Value)) :
    RState → List ListenerSpec → Nat → RState × List PubLog × List Nat
  | st, [], _ => (st, [], [])
  | st, l :: rest, i =>
    if l.fnTy.params.length > MaxArgs then
      let r := processListenersLoop ni payload st rest (i + 1)
      (r.1, .tooManyDepsFor i :: r.2.1, r.2.2)
    else if l.fnTy.params.length = 0 then
      let r := processListenersLoop ni payload st rest (i + 1)
      (r.1, r.2.1, i :: r.2.2)
    else
      match resolveArgsWith ni payload st l.fnTy.params 0 with
      | (st₁, .error e) =>
        let r := processListenersLoop ni payload st₁ rest (i + 1)
        (r.1, .resolveFailedFor i e :: r.2.1, r.2.2)
      | (st₁, .ok _) =>
        let r := processListenersLoop ni payload st₁ rest (i + 1)
        (r.1, r.2.1, i :: r.2.2)

/-- `Van.processEvent(ctx, event)` — the body of the goroutine spawned by
`Publish`: look up the listeners for the event type (nothing to do if there
are none) and run the listener loop.  Returns the final state, the log lines,
and the indices of the listeners that were actually called. -/
def Van.processEvent (van : Van) (fuel : Nat) (st : RState) (eventType : Ty)
    (eventVal : Value) : RState × List PubLog × List Nat :=
  match lookupTy van.listeners eventType with
  | none => (st, [], [])
  | some ls =>
    processListenersLoop (van.new fuel) (some (eventType, eventVal)) st ls 0

/-- A sequence of capability resolutions performed against a bus: each
request names the capability type to resolve and the fuel available to that
resolution.  This is the serialization of any set of (possibly concurrent)
callers: the per-provider lock makes concurrent singleton constructions take
effect in some serial order, and the model quantifies over all of them. -/
def Van.runReqs (van : Van) : List (Ty × Nat) → RState → RState
  | [], st => st
  | (t, fuel) :: rest, st => van.runReqs rest (van.new fuel st t).1

/-! ### Concrete fixtures

Small concrete buses used by the witness theorems and counterexamples.
Capability ids: `iface 1`, `iface 2`; struct ids: `10` (the `Sum` command),
`20` (an event), `30` (a capability-set). -/

/-- A no-dependency singleton provider whose constructor always succeeds. -/
def wSingP : ProviderOpts := ⟨[], fun _ k => .ok (.obj 1 k), true, false⟩

/-- A bus with `wSingP` registered for capability `iface 1`. -/
def wSingVan : Van := ⟨[(.iface 1, wSingP)], [], []⟩

/-- A no-dependency singleton provider that fails on its first execution
(user error code 7) and succeeds afterwards. -/
def wFailP : ProviderOpts :=
  ⟨[], fun _ k => if k = 0 then .error 7 else .ok (.obj 1 k), true, false⟩

/-- A bus with `wFailP` registered for capability `iface 1`. -/
def wFailVan : Van := ⟨[(.iface 1, wFailP)], [], []⟩

/-- The `SumCommand` struct type: three exported `int` fields
(`A`, `B`, `Result`). -/
def sumTy : Ty :=
  .strct 10 (.cons true (.other 1) (.cons true (.other 1) (.cons true (.other 1) .nil)))

/-- The `Sum` handler: signature `func(ctx, *SumCommand) error`; it writes
`Result = A + B` through the payload pointer and returns no error. -/
def sumHandler : HandlerSpec :=
  ⟨⟨[.context, .ptrTo sumTy], [.errorT]⟩,
   fun args =>
     match args with
     | [_, .structV [.natV a, .natV b, _]] => (.structV [.natV a, .natV b, .natV (a + b)], none)
     | _ => (.nilV, some 99)⟩

/-- A bus with only the `Sum` handler registered. -/
def sumVan : Van := ⟨[], [(sumTy, sumHandler)], []⟩

/-- A non-singleton provider for `iface 1` with no dependencies; its
constructor behaviour is the parameter `f` (always succeeding). -/
def chainP1 (f : Nat → Value) : ProviderOpts := ⟨[], fun _ k => .ok (f k), false, false⟩

/-- A non-singleton provider for `iface 2` depending on `iface 1`; its
constructor behaviour is the parameter `g` (always succeeding). -/
def chainP2 (g : Nat → Value) : ProviderOpts :=
  ⟨[.iface 1], fun _ k => .ok (g k), false, false⟩

/-- The command type used by the transitive-chain fixture. -/
def chainCmdTy : Ty := .strct 10 .nil

/-- A handler depending on capability `iface 2`; its behaviour is the
parameter `hr`. -/
def chainH (hr : List Value → Value × Option Nat) : HandlerSpec :=
  ⟨⟨[.context, .ptrTo chainCmdTy, .iface 2], [.errorT]⟩, hr⟩

/-- The transitive-chain bus: handler → `iface 2` → `iface 1`, with all
providers non-singleton. -/
def chainVan (f g : Nat → Value) (hr : List Value → Value × Option Nat) : Van :=
  ⟨[(.iface 1, chainP1 f), (.iface 2, chainP2 g)], [(chainCmdTy, chainH hr)], []⟩

/-- Repeated invocation of the same command. -/
def invokeN (van : Van) (fuel : Nat) (cmdType : Ty) (cmdVal : Value) :
    Nat → RState → RState
  | 0, st => st
  | n + 1, st => invokeN van fuel cmdType cmdVal n (van.Invoke fuel st cmdType cmdVal).1

/-- An always-failing non-singleton provider for `iface 1` (user error 7). -/
def pubFailP : ProviderOpts := ⟨[], fun _ _ => .error 7, false, false⟩

/-- The event struct type of the publish fixtures. -/
def evTy : Ty := .strct 20 .nil

/-- A listener on `evTy` that depends on `iface 1`
(`func(ctx, Event, GetIntService)`, no return values). -/
def pubListener : ListenerSpec := ⟨⟨[.context, evTy, .iface 1], []⟩⟩

/-- A bus where the only listener's dependency provider always fails:
publishing reaches `processEvent`, whose resolution failure is only
logged. -/
def pubVan : Van := ⟨[(.iface 1, pubFailP)], [], [(evTy, [pubListener])]⟩

/-- A provider candidate `func(ctx) (iface 1, error)`: takes a context
directly. -/
def ctxProvDecl : ProviderDecl := ⟨⟨[.context], [.iface 1, .errorT]⟩, fun _ k => .ok (.obj 1 k)⟩

/-- The capability-set struct type with a single exported field of type
`iface 1`. -/
def depSetTy : Ty := .strct 30 (.cons true (.iface 1) .nil)

/-- A provider candidate `func(depSet) (iface 2, error)`: depends on
`iface 1` only through a capability-set field. -/
def holeProvDecl : ProviderDecl := ⟨⟨[depSetTy], [.iface 2, .errorT]⟩, fun _ k => .ok (.obj 2 k)⟩

/-- The bus after registering `ctxProvDecl` (non-singleton): the provider for
`iface 1` is recorded with `takesContext = true`. -/
def vanHole1 : Van :=
  ⟨[(.iface 1, ⟨[.context], ctxProvDecl.fn, false, true⟩)], [], []⟩

/-- The bus after additionally registering `holeProvDecl` as a singleton:
the registration goes through even though `iface 2`'s constructor depends,
through the capability-set field, on the context-taking `iface 1`
provider. -/
def vanHole2 : Van :=
  ⟨[(.iface 2, ⟨[depSetTy], holeProvDecl.fn, true, false⟩),
    (.iface 1, ⟨[.context], ctxProvDecl.fn, false, true⟩)], [], []⟩

/-- The well-formedness of capability-set fields as the specification states
it: every field is exported and of capability (interface) type.  Used to
characterize `validateDependencyStruct`. -/
def FieldsValid : Fields → Prop
  | .nil => True
  | .cons exported ty rest =>
    exported = true ∧ ty.kind = Kind.interface ∧ FieldsValid rest

/-! ### Counting and lookup lemmas -/

theorem countExec_append (t : Ty) (l₁ l₂ : List ExecEv) :
    countExec t (l₁ ++ l₂) = countExec t l₁ + countExec t l₂ := by
  induction l₁ with
  | nil => simp [countExec]
  | cons e rest ih => simp [countExec, ih]; omega

theorem countOk_append (t : Ty) (l₁ l₂ : List ExecEv) :
    countOk t (l₁ ++ l₂) = countOk t l₁ + countOk t l₂ := by
  induction l₁ with
  | nil => simp [countOk]
  | cons e rest ih => simp [countOk, ih]; omega

theorem countOk_le_countExec (t : Ty) (l : List ExecEv) :
    countOk t l ≤ countExec t l := by
  induction l with
  | nil => simp [countOk, countExec]
  | cons e rest ih =>
    simp only [countOk, countExec]
    have : (if e.cap = t ∧ e.isOk then 1 else 0) ≤ (if e.cap = t then 1 else 0) := by
      split <;> simp_all
    omega

theorem countExec_eq_countOk_of_allOk (t : Ty) (l : List ExecEv)
    (h : ∀ e ∈ l, e.cap = t → e.isOk = true) :
    countExec t l = countOk t l := by
  induction l with
  | nil => rfl
  | cons e rest ih =>
    simp only [countExec, countOk]
    have hrest := ih (fun e' he' => h e' (List.mem_cons_of_mem _ he'))
    have : (if e.cap = t then 1 else 0) = (if e.cap = t ∧ e.isOk then 1 else 0) := by
      by_cases hc : e.cap = t
      · have := h e (List.mem_cons_self _ _) hc
        simp [hc, this]
      · simp [hc]
    omega

theorem countOk_eq_of_countExec_eq (t : Ty) (l Δ : List ExecEv)
    (h : countExec t (l ++ Δ) = countExec t l) :
    countOk t (l ++ Δ) = countOk t l := by
  have h1 := countExec_append t l Δ
  have h2 := countOk_append t l Δ
  have h3 := countOk_le_countExec t Δ
  omega

theorem lookupTy_cons_ne {α : Type} (l : List (Ty × α)) (k t : Ty) (v : α)
    (h : k ≠ t) : lookupTy ((k, v) :: l) t = lookupTy l t := by
  simp [lookupTy, h]

/-! ### The singleton invariant and the step property

Throughout this section `t` is a fixed capability type with a registered
singleton provider.  `SingG` is the state invariant tying the cache slot of
`t` to the execution log; `StepOK` collects the properties every single
engine call enjoys with respect to `t`. -/

/-- The singleton invariant for capability `t`: while the cache slot is
empty, no successful constructor execution has happened; once the slot holds
`v`, exactly one successful execution has happened and it produced `v`. -/
def SingG (t : Ty) (st : RState) : Prop :=
  match lookupTy st.instances t with
  | none => countOk t st.log = 0
  | some v => countOk t st.log = 1 ∧ ∃ k, (⟨t, k, .ok v⟩ : ExecEv) ∈ st.log

/-- Transition properties of one engine call with respect to the singleton
capability `t`: locks are restored, the log only grows, a populated cache
slot stays populated with the same value and suppresses further executions,
holding `t`'s write lock freezes `t`'s slot and execution count, and the
invariant `SingG` is preserved. -/
structure StepOK (t : Ty) (st st' : RState) : Prop where
  locked_eq : st'.locked = st.locked
  log_ext : ∃ Δ, st'.log = st.log ++ Δ
  cache_stable : ∀ v, lookupTy st.instances t = some v →
    lookupTy st'.instances t = some v ∧ countExec t st'.log = countExec t st.log
  locked_frozen : t ∈ st.locked →
    lookupTy st'.instances t = lookupTy st.instances t ∧
    countExec t st'.log = countExec t st.log
  g_pres : SingG t st → SingG t st'

theorem stepOK_refl {t : Ty} (st : RState) : StepOK t st st :=
  ⟨rfl, ⟨[], by simp⟩, fun _ h => ⟨h, rfl⟩, fun _ => ⟨rfl, rfl⟩, id⟩

theorem StepOK.trans {t : Ty} {st₁ st₂ st₃ : RState}
    (h₁ : StepOK t st₁ st₂) (h₂ : StepOK t st₂ st₃) : StepOK t st₁ st₃ := by
  refine ⟨h₂.locked_eq.trans h₁.locked_eq, ?_, ?_, ?_, fun g => h₂.g_pres (h₁.g_pres g)⟩
  · obtain ⟨Δ₁, e₁⟩ := h₁.log_ext
    obtain ⟨Δ₂, e₂⟩ := h₂.log_ext
    exact ⟨Δ₁ ++ Δ₂, by simp [e₂, e₁]⟩
  · intro v hv
    obtain ⟨hv₂, hc₂⟩ := h₁.cache_stable v hv
    obtain ⟨hv₃, hc₃⟩ := h₂.cache_stable v hv₂
    exact ⟨hv₃, hc₃.trans hc₂⟩
  · intro hl
    obtain ⟨hv₂, hc₂⟩ := h₁.locked_frozen hl
    obtain ⟨hv₃, hc₃⟩ := h₂.locked_frozen (h₁.locked_eq ▸ hl)
    exact ⟨hv₃.trans hv₂, hc₃.trans hc₂⟩

/-- Mutations that do not touch capability `t` (other providers' executions,
other slots, no lock change) satisfy the step property. -/
theorem singG_mono (t : Ty) {st st' : RState}
    (hi : lookupTy st'.instances t = lookupTy st.instances t)
    (hl : ∃ Δ, st'.log = st.log ++ Δ ∧ countOk t Δ = 0) :
    SingG t st → SingG t st' := by
  intro h
  obtain ⟨Δ, hΔ, h0⟩ := hl
  unfold SingG at h ⊢
  rw [hi]
  cases hcase : lookupTy st.instances t with
  | none =>
    rw [hcase] at h
    simp only [hΔ, countOk_append, h, h0]
  | some v =>
    rw [hcase] at h
    obtain ⟨h1, k, hk⟩ := h
    exact ⟨by simp [hΔ, countOk_append, h1, h0], k, by simp [hΔ]; exact Or.inl hk⟩

theorem stepOK_of_invisible (t : Ty) {st st' : RState}
    (hlk : st'.locked = st.locked)
    (hi : lookupTy st'.instances t = lookupTy st.instances t)
    (hl : ∃ Δ, st'.log = st.log ++ Δ ∧ countExec t Δ = 0) : StepOK t st st' := by
  obtain ⟨Δ, hΔ, h0⟩ := hl
  have hce : countExec t st'.log = countExec t st.log := by
    simp [hΔ, countExec_append, h0]
  have hok : countOk t Δ = 0 :=
    Nat.le_zero.mp (h0 ▸ countOk_le_countExec t Δ)
  exact ⟨hlk, ⟨Δ, hΔ⟩, fun v hv => ⟨hi.trans hv, hce⟩, fun _ => ⟨hi, hce⟩,
    singG_mono t hi ⟨Δ, hΔ, hok⟩⟩

theorem stepOK_buildStructWith (t : Ty)
    (ni : RState → Ty → RState × Except RtErr Value)
    (hni : ∀ st t', StepOK t st (ni st t').1) :
    ∀ (fs : Fields) (st : RState), StepOK t st (buildStructWith ni st fs).1
  | .nil, st => stepOK_refl st
  | .cons _ex ty rest, st => by
    rcases h : ni st ty with ⟨st', r⟩
    have h1 : StepOK t st st' := by have := hni st ty; rwa [h] at this
    cases r with
    | error e => simp only [buildStructWith, h]; exact h1
    | ok v =>
      rcases h2 : buildStructWith ni st' rest with ⟨st'', r'⟩
      have h3 : StepOK t st' st'' := by
        have := stepOK_buildStructWith t ni hni rest st'; rwa [h2] at this
      cases r' with
      | error e => simp only [buildStructWith, h, h2]; exact h1.trans h3
      | ok vs => simp only [buildStructWith, h, h2]; exact h1.trans h3

theorem stepOK_resolveParamLater (t : Ty)
    (ni : RState → Ty → RState × Except RtErr Value)
    (hni : ∀ st t', StepOK t st (ni st t').1) (st : RState) (argType : Ty) :
    StepOK t st (resolveParamLater ni st argType).1 := by
  unfold resolveParamLater
  by_cases hv : argType = typeVan
  · rw [if_pos hv]; exact stepOK_refl st
  · rw [if_neg hv]
    by_cases hk : argType.kind = Kind.interface
    · rw [if_pos hk]; exact hni st argType
    · rw [if_neg hk]
      cases argType with
      | context => exact absurd rfl hk
      | errorT => exact absurd rfl hk
      | iface id => exact absurd rfl hk
      | ptrTo t' => exact stepOK_refl st
      | other id => exact stepOK_refl st
      | strct id fs =>
        rcases h : buildStructWith ni st fs with ⟨st', r⟩
        have h1 : StepOK t st st' := by
          have := stepOK_buildStructWith t ni hni fs st; rwa [h] at this
        cases r with
        | error e => simp only [h]; exact h1
        | ok vs => simp only [h]; exact h1

theorem stepOK_resolveParamWith (t : Ty)
    (ni : RState → Ty → RState × Except RtErr Value)
    (hni : ∀ st t', StepOK t st (ni st t').1)
    (payload : Option (Ty × Value)) (st : RState) (i : Nat) (argType : Ty) :
    StepOK t st (resolveParamWith ni payload st i argType).1 := by
  unfold resolveParamWith
  split
  · exact stepOK_refl st
  · split
    · split
      · exact stepOK_refl st
      · exact stepOK_resolveParamLater t ni hni st argType
    · exact stepOK_resolveParamLater t ni hni st argType

theorem stepOK_resolveArgsWith (t : Ty)
    (ni : RState → Ty → RState × Except RtErr Value)
    (hni : ∀ st t', StepOK t st (ni st t').1)
    (payload : Option (Ty × Value)) :
    ∀ (params : List Ty) (st : RState) (i : Nat),
      StepOK t st (resolveArgsWith ni payload st params i).1
  | [], st, _ => stepOK_refl st
  | ty :: rest, st, i => by
    rcases h : resolveParamWith ni payload st i ty with ⟨st', r⟩
    have h1 : StepOK t st st' := by
      have := stepOK_resolveParamWith t ni hni payload st i ty; rwa [h] at this
    cases r with
    | error e => simp only [resolveArgsWith, h]; exact h1
    | ok v =>
      rcases h2 : resolveArgsWith ni payload st' rest (i + 1) with ⟨st'', r'⟩
      have h3 : StepOK t st' st'' := by
        have := stepOK_resolveArgsWith t ni hni payload rest st' (i + 1)
        rwa [h2] at this
      cases r' with
      | error e => simp only [resolveArgsWith, h, h2]; exact h1.trans h3
      | ok vs => simp only [resolveArgsWith, h, h2]; exact h1.trans h3

theorem countExec_single (t t' : Ty) (k : Nat) (r : Except Nat Value) :
    countExec t [⟨t', k, r⟩] = if t' = t then 1 else 0 := by
  simp [countExec]

theorem countOk_single_ok (t t' : Ty) (k : Nat) (v : Value) :
    countOk t [⟨t', k, .ok v⟩] = if t' = t then 1 else 0 := by
  simp [countOk, ExecEv.isOk]

theorem countOk_single_err (t t' : Ty) (k : Nat) (e : Nat) :
    countOk t [⟨t', k, .error e⟩] = 0 := by
  simp [countOk, ExecEv.isOk]

/-- The construction body for a capability other than `t` satisfies the step
property: its executions and slot updates concern only that other
capability. -/
theorem stepOK_constructWith_ne (t : Ty)
    (ni : RState → Ty → RState × Except RtErr Value)
    (hni : ∀ st t'', StepOK t st (ni st t'').1)
    (st : RState) (t' : Ty) (p : ProviderOpts) (slot : Bool) (hne : t' ≠ t) :
    StepOK t st (constructWith ni st t' p slot).1 := by
  unfold constructWith
  split
  · exact stepOK_refl st
  · rcases h : resolveArgsWith ni none st p.params 0 with ⟨st₁, r⟩
    have h1 : StepOK t st st₁ := by
      have := stepOK_resolveArgsWith t ni hni none p.params st 0; rwa [h] at this
    cases r with
    | error e => exact h1
    | ok args =>
      simp only
      cases hf : p.fn args (countExec t' st₁.log) with
      | error e =>
        refine h1.trans (stepOK_of_invisible t rfl rfl ⟨[⟨t', _, .error e⟩], rfl, ?_⟩)
        simp [countExec_single, hne]
      | ok v =>
        cases slot with
        | false =>
          refine h1.trans (stepOK_of_invisible t rfl rfl ⟨[⟨t', _, .ok v⟩], rfl, ?_⟩)
          simp [countExec_single, hne]
        | true =>
          refine h1.trans (stepOK_of_invisible t rfl ?_ ⟨[⟨t', _, .ok v⟩], rfl, ?_⟩)
          · exact lookupTy_cons_ne _ t' t v hne
          · simp [countExec_single, hne]

/-- The construction body for `t` itself, entered while holding `t`'s write
lock with an empty slot: the lock freezes `t` during the dependency
resolution, so exactly the one final execution of `t`'s constructor happens;
on failure the slot stays empty, on success the slot receives exactly the
constructed value. -/
theorem constructWith_self_props (t : Ty)
    (ni : RState → Ty → RState × Except RtErr Value)
    (hni : ∀ st t'', StepOK t st (ni st t'').1)
    (st₀ : RState) (p : ProviderOpts)
    (hmem : t ∈ st₀.locked) (hnone : lookupTy st₀.instances t = none) :
    (constructWith ni st₀ t p true).1.locked = st₀.locked ∧
    (∃ Δ, (constructWith ni st₀ t p true).1.log = st₀.log ++ Δ) ∧
    (countOk t st₀.log = 0 →
      ((∀ e, (constructWith ni st₀ t p true).2 = .error e →
          lookupTy (constructWith ni st₀ t p true).1.instances t = none ∧
          countOk t (constructWith ni st₀ t p true).1.log = 0) ∧
       (∀ v, (constructWith ni st₀ t p true).2 = .ok v →
          lookupTy (constructWith ni st₀ t p true).1.instances t = some v ∧
          countOk t (constructWith ni st₀ t p true).1.log = 1 ∧
          ∃ k, (⟨t, k, .ok v⟩ : ExecEv) ∈ (constructWith ni st₀ t p true).1.log))) := by
  unfold constructWith
  split
  · exact ⟨rfl, ⟨[], by simp⟩, fun h0 =>
      ⟨fun e _ => ⟨hnone, h0⟩, fun v hv => by cases hv⟩⟩
  · rcases h : resolveArgsWith ni none st₀ p.params 0 with ⟨st₁, r⟩
    have h1 : StepOK t st₀ st₁ := by
      have := stepOK_resolveArgsWith t ni hni none p.params st₀ 0; rwa [h] at this
    obtain ⟨hfz, hcx⟩ := h1.locked_frozen hmem
    obtain ⟨Δ₁, hΔ₁⟩ := h1.log_ext
    have hnone₁ : lookupTy st₁.instances t = none := hfz.trans hnone
    have hok₁ : countOk t st₁.log = countOk t st₀.log := by
      rw [hΔ₁]; exact countOk_eq_of_countExec_eq t st₀.log Δ₁ (hΔ₁ ▸ hcx)
    cases r with
    | error e =>
      exact ⟨h1.locked_eq, ⟨Δ₁, hΔ₁⟩, fun h0 =>
        ⟨fun _ _ => ⟨hnone₁, by rw [hok₁]; exact h0⟩, fun v hv => by cases hv⟩⟩
    | ok args =>
      simp only
      cases hf : p.fn args (countExec t st₁.log) with
      | error e =>
        refine ⟨h1.locked_eq,
          ⟨Δ₁ ++ [⟨t, countExec t st₁.log, .error e⟩], by simp [hΔ₁]⟩,
          fun h0 => ⟨?_, ?_⟩⟩
        · intro e' _
          constructor
          · exact hnone₁
          · show countOk t (st₁.log ++ [⟨t, countExec t st₁.log, .error e⟩]) = 0
            rw [countOk_append, hok₁, h0, countOk_single_err]
        · intro v hv; cases hv
      | ok v =>
        refine ⟨h1.locked_eq,
          ⟨Δ₁ ++ [⟨t, countExec t st₁.log, .ok v⟩], by simp [hΔ₁]⟩,
          fun h0 => ⟨?_, ?_⟩⟩
        · intro e' he'; cases he'
        · intro v' hv'
          cases hv'
          refine ⟨by simp [lookupTy], ?_, ?_⟩
          · show countOk t (st₁.log ++ [⟨t, countExec t st₁.log, .ok v⟩]) = 1
            rw [countOk_append, hok₁, h0, countOk_single_ok, if_pos rfl]
          · exact ⟨countExec t st₁.log, by simp⟩

/-- `Van.newSingleton` satisfies the step property for any target capability:
for the fixed `t` itself the write lock freezes `t` during dependency
resolution so the invariant is re-established, and for any other capability
the mutations are invisible to `t`. -/
theorem stepOK_newSingletonWith (t : Ty)
    (ni : RState → Ty → RState × Except RtErr Value)
    (hni : ∀ st t'', StepOK t st (ni st t'').1)
    (providers : List (Ty × ProviderOpts)) (st : RState) (t' : Ty) :
    StepOK t st (newSingletonWith ni providers st t').1 := by
  unfold newSingletonWith
  cases hpp : lookupTy providers t' with
  | none => exact stepOK_refl st
  | some p =>
    simp only
    split
    · exact stepOK_refl st
    · rename_i hnl
      show StepOK t st
        (let res :=
          match lookupTy ({st with locked := t' :: st.locked} : RState).instances t' with
          | some v => (({st with locked := t' :: st.locked} : RState), Except.ok v)
          | none => constructWith ni {st with locked := t' :: st.locked} t' p true
         ({ res.1 with locked := res.1.locked.erase t' }, res.2)).1
      cases hin : lookupTy st.instances t' with
      | some v =>
        show StepOK t st
          ({ ({st with locked := t' :: st.locked} : RState) with
              locked := ((t' :: st.locked).erase t') }, Except.ok v).1
        exact stepOK_of_invisible t (by simp) rfl ⟨[], by simp, rfl⟩
      | none =>
        rcases hc : constructWith ni {st with locked := t' :: st.locked} t' p true
          with ⟨st₂, r⟩
        show StepOK t st ({ st₂ with locked := st₂.locked.erase t' }, r).1
        by_cases ht : t' = t
        · subst ht
          have props := constructWith_self_props t' ni hni
            {st with locked := t' :: st.locked} p (List.mem_cons_self t' st.locked) hin
          rw [hc] at props
          obtain ⟨plk, ⟨Δ, hΔ⟩, pG⟩ := props
          refine ⟨?_, ⟨Δ, hΔ⟩, ?_, ?_, ?_⟩
          · show st₂.locked.erase t' = st.locked
            rw [plk]; simp
          · intro v hv; rw [hv] at hin; cases hin
          · intro hm; exact absurd hm hnl
          · intro hg
            have h0 : countOk t' st.log = 0 := by
              unfold SingG at hg; rw [hin] at hg; exact hg
            obtain ⟨pErr, pOk⟩ := pG h0
            cases r with
            | error e =>
              obtain ⟨pi, pc⟩ := pErr e rfl
              unfold SingG
              show (match lookupTy st₂.instances t' with
                | none => countOk t' st₂.log = 0
                | some v => countOk t' st₂.log = 1 ∧
                    ∃ k, (⟨t', k, .ok v⟩ : ExecEv) ∈ st₂.log)
              rw [pi]; exact pc
            | ok v =>
              obtain ⟨pi, pc, pm⟩ := pOk v rfl
              unfold SingG
              show (match lookupTy st₂.instances t' with
                | none => countOk t' st₂.log = 0
                | some v => countOk t' st₂.log = 1 ∧
                    ∃ k, (⟨t', k, .ok v⟩ : ExecEv) ∈ st₂.log)
              rw [pi]; exact ⟨pc, pm⟩
        · have S : StepOK t {st with locked := t' :: st.locked} st₂ := by
            have := stepOK_constructWith_ne t ni hni
              {st with locked := t' :: st.locked} t' p true ht
            rwa [hc] at this
          obtain ⟨Δ, hΔ⟩ := S.log_ext
          refine ⟨?_, ⟨Δ, hΔ⟩, ?_, ?_, ?_⟩
          · show st₂.locked.erase t' = st.locked
            rw [S.locked_eq]; simp
          · intro v hv; exact S.cache_stable v hv
          · intro hm
            exact S.locked_frozen (List.mem_cons_of_mem t' hm)
          · intro hg; exact S.g_pres hg

/-- Every call of `Van.new` satisfies the step property for a capability `t`
registered as a singleton. -/
theorem stepOK_new (t : Ty) (van : Van) (p : ProviderOpts)
    (hp : lookupTy van.providers t = some p) (hs : p.singleton = true) :
    ∀ (fuel : Nat) (st : RState) (t' : Ty), StepOK t st (van.new fuel st t').1
  | 0, st, _ => stepOK_refl st
  | fuel + 1, st, t' => by
    have hni : ∀ st₂ t₂, StepOK t st₂ (van.new fuel st₂ t₂).1 :=
      stepOK_new t van p hp hs fuel
    show StepOK t st
      ((match lookupTy van.providers t' with
        | none => (st, Except.error (RtErr.nilProviderDeref t'))
        | some p' =>
          if p'.singleton then
            if t' ∈ st.locked then (st, Except.error (RtErr.deadlock t'))
            else
              match lookupTy st.instances t' with
              | some v => (st, Except.ok v)
              | none => newSingletonWith (van.new fuel) van.providers st t'
          else constructWith (van.new fuel) st t' p' false)).1
    cases hpp : lookupTy van.providers t' with
    | none => exact stepOK_refl st
    | some p' =>
      simp only
      cases hsing : p'.singleton with
      | true =>
        rw [if_pos rfl]
        split
        · exact stepOK_refl st
        · cases hin : lookupTy st.instances t' with
          | some v => exact stepOK_refl st
          | none => exact stepOK_newSingletonWith t (van.new fuel) hni van.providers st t'
      | false =>
        rw [if_neg (by simp)]
        have ht : t' ≠ t := by
          intro h
          subst h
          rw [hp] at hpp
          cases hpp
          rw [hs] at hsing
          cases hsing
        exact stepOK_constructWith_ne t (van.new fuel) hni st t' p' false ht

/-- Unfolding equation of `Van.new` at positive fuel. -/
theorem Van.new_succ (van : Van) (fuel : Nat) (st : RState) (t : Ty) :
    van.new (fuel + 1) st t =
      (match lookupTy van.providers t with
        | none => (st, Except.error (RtErr.nilProviderDeref t))
        | some p' =>
          if p'.singleton then
            if t ∈ st.locked then (st, Except.error (RtErr.deadlock t))
            else
              match lookupTy st.instances t with
              | some v => (st, Except.ok v)
              | none => newSingletonWith (van.new fuel) van.providers st t
          else constructWith (van.new fuel) st t p' false) := rfl

/-- Reading a populated singleton slot: `Van.new` returns the cached instance
immediately, without touching the state. -/
theorem Van.new_cached (van : Van) (t : Ty) (p : ProviderOpts) (v : Value)
    (fuel : Nat) (st : RState)
    (hp : lookupTy van.providers t = some p) (hs : p.singleton = true)
    (hnl : t ∉ st.locked) (hv : lookupTy st.instances t = some v) :
    van.new (fuel + 1) st t = (st, .ok v) := by
  rw [Van.new_succ, hp]
  simp only [hs, if_true, if_neg hnl, hv]

theorem Van.runReqs_append (van : Van) (r₁ r₂ : List (Ty × Nat)) (st : RState) :
    van.runReqs (r₁ ++ r₂) st = van.runReqs r₂ (van.runReqs r₁ st) := by
  induction r₁ generalizing st with
  | nil => rfl
  | cons q rest ih =>
    cases q
    simp only [Van.runReqs, List.cons_append]
    exact ih _

theorem stepOK_runReqs (t : Ty) (van : Van) (p : ProviderOpts)
    (hp : lookupTy van.providers t = some p) (hs : p.singleton = true) :
    ∀ (reqs : List (Ty × Nat)) (st : RState), StepOK t st (van.runReqs reqs st)
  | [], st => stepOK_refl st
  | (t', fuel) :: rest, st => by
    have h1 : StepOK t st (van.new fuel st t').1 := stepOK_new t van p hp hs fuel st t'
    exact h1.trans (stepOK_runReqs t van p hp hs rest (van.new fuel st t').1)

theorem singG_initState (t : Ty) : SingG t initState := rfl

/-- C1: For every singleton provider, over any serialized sequence of
resolutions (the per-provider lock serializes concurrent callers, and the
sequence of requests is arbitrary), (1) the constructor returns successfully
at most once; (2) if no execution fails, the constructor executes at most
once; (3) the cached instance slot is non-null only after the constructor has
returned that very value successfully; (4) the slot is set at most once: once
populated it keeps the same value, and no further constructor execution ever
happens; (5) every resolution of the capability after a successful
construction returns the identical cached instance, leaving the state — in
particular the execution log — untouched. -/
theorem singleton_constructor_at_most_once
    (van : Van) (t : Ty) (p : ProviderOpts)
    (hp : lookupTy van.providers t = some p) (hs : p.singleton = true) :
    (∀ reqs : List (Ty × Nat), countOk t (van.runReqs reqs initState).log ≤ 1) ∧
    (∀ reqs : List (Ty × Nat),
      (∀ e ∈ (van.runReqs reqs initState).log, e.cap = t → e.isOk = true) →
      countExec t (van.runReqs reqs initState).log ≤ 1) ∧
    (∀ (reqs : List (Ty × Nat)) (v : Value),
      lookupTy (van.runReqs reqs initState).instances t = some v →
      ∃ k, (⟨t, k, .ok v⟩ : ExecEv) ∈ (van.runReqs reqs initState).log) ∧
    (∀ (reqs₁ reqs₂ : List (Ty × Nat)) (v : Value),
      lookupTy (van.runReqs reqs₁ initState).instances t = some v →
      lookupTy (van.runReqs (reqs₁ ++ reqs₂) initState).instances t = some v ∧
      countExec t (van.runReqs (reqs₁ ++ reqs₂) initState).log =
        countExec t (van.runReqs reqs₁ initState).log) ∧
    (∀ (reqs : List (Ty × Nat)) (v : Value) (fuel : Nat),
      lookupTy (van.runReqs reqs initState).instances t = some v →
      van.new (fuel + 1) (van.runReqs reqs initState) t =
        (van.runReqs reqs initState, .ok v)) := by
  have hG : ∀ reqs, SingG t (van.runReqs reqs initState) := fun reqs =>
    (stepOK_runReqs t van p hp hs reqs initState).g_pres (singG_initState t)
  have hLk : ∀ reqs, (van.runReqs reqs initState).locked = [] := fun reqs =>
    (stepOK_runReqs t van p hp hs reqs initState).locked_eq
  have hOk1 : ∀ reqs, countOk t (van.runReqs reqs initState).log ≤ 1 := by
    intro reqs
    have hg := hG reqs
    unfold SingG at hg
    cases h : lookupTy (van.runReqs reqs initState).instances t with
    | none => rw [h] at hg; omega
    | some v => rw [h] at hg; exact le_of_eq hg.1
  refine ⟨hOk1, ?_, ?_, ?_, ?_⟩
  · intro reqs hall
    rw [countExec_eq_countOk_of_allOk t _ hall]
    exact hOk1 reqs
  · intro reqs v hv
    have hg := hG reqs
    unfold SingG at hg
    rw [hv] at hg
    exact hg.2
  · intro reqs₁ reqs₂ v hv
    rw [Van.runReqs_append]
    exact (stepOK_runReqs t van p hp hs reqs₂ (van.runReqs reqs₁ initState)).cache_stable v hv
  · intro reqs v fuel hv
    refine Van.new_cached van t p v fuel _ hp hs ?_ hv
    rw [hLk reqs]
    simp

/-- Witness for `singleton_constructor_at_most_once`: the concrete singleton
bus `wSingVan`, resolved twice. -/
theorem singleton_constructor_at_most_once_witness :
    lookupTy wSingVan.providers (.iface 1) = some wSingP ∧
    wSingP.singleton = true ∧
    countOk (.iface 1)
      ((wSingVan.runReqs [(.iface 1, 5), (.iface 1, 5)] initState).log) ≤ 1 ∧
    countOk (.iface 1)
      ((wSingVan.runReqs [(.iface 1, 5), (.iface 1, 5)] initState).log) = 1 :=
  ⟨rfl, rfl,
   (singleton_constructor_at_most_once wSingVan (.iface 1) wSingP rfl rfl).1 _,
   rfl⟩

/-- Unfolding of a singleton construction attempt from an empty, unlocked
slot: the dependency resolution runs under the write lock and then the
constructor executes exactly once, appending one execution event; an error is
wrapped with the capability type name and leaves the slot empty, a success
populates the slot. -/
theorem Van.new_singleton_construct (van : Van) (t : Ty) (p : ProviderOpts)
    (fuel : Nat) (st st₁ : RState) (args : List Value)
    (hp : lookupTy van.providers t = some p) (hs : p.singleton = true)
    (hnl : t ∉ st.locked) (hnone : lookupTy st.instances t = none)
    (hlen : ¬ p.params.length > MaxArgs)
    (hres : resolveArgsWith (van.new fuel) none
      {st with locked := t :: st.locked} p.params 0 = (st₁, .ok args)) :
    van.new (fuel + 1) st t =
      (match p.fn args (countExec t st₁.log) with
       | .error e =>
         ((⟨st₁.instances, st₁.log ++ [⟨t, countExec t st₁.log, .error e⟩],
            st₁.locked.erase t⟩ : RState),
          .error (.resolveFailed t e))
       | .ok v =>
         ((⟨(t, v) :: st₁.instances, st₁.log ++ [⟨t, countExec t st₁.log, .ok v⟩],
            st₁.locked.erase t⟩ : RState),
          .ok v)) := by
  rw [Van.new_succ, hp]
  simp only [hs, if_true, if_neg hnl, hnone]
  unfold newSingletonWith
  rw [hp]
  simp only [if_neg hnl]
  have hinst : lookupTy ({st with locked := t :: st.locked} : RState).instances t = none := hnone
  rw [hinst]
  unfold constructWith
  rw [if_neg hlen, hres]
  dsimp only
  cases hf : p.fn args (countExec t st₁.log) with
  | error e => rfl
  | ok v => rfl

/-- C3: A singleton provider whose constructor fails during resolution:
(i) the resolution call returns the constructor's error wrapped with the
capability type name; (ii) the cached-instance slot remains empty;
(iii) the constructor did execute this once; and (iv) any subsequent
resolution from the still-empty slot re-executes the constructor. -/
theorem singleton_error_does_not_poison_slot
    (van : Van) (t : Ty) (p : ProviderOpts)
    (hp : lookupTy van.providers t = some p) (hs : p.singleton = true)
    (st : RState) (fuel : Nat) (st₁ : RState) (args : List Value) (e : Nat)
    (hnl : t ∉ st.locked) (hnone : lookupTy st.instances t = none)
    (hlen : ¬ p.params.length > MaxArgs)
    (hres : resolveArgsWith (van.new fuel) none
      {st with locked := t :: st.locked} p.params 0 = (st₁, .ok args))
    (hfail : p.fn args (countExec t st₁.log) = .error e) :
    (van.new (fuel + 1) st t).2 = .error (.resolveFailed t e) ∧
    lookupTy (van.new (fuel + 1) st t).1.instances t = none ∧
    countExec t (van.new (fuel + 1) st t).1.log = countExec t st.log + 1 ∧
    (∀ (fuel' : Nat) (st' st₂ : RState) (args' : List Value),
      t ∉ st'.locked → lookupTy st'.instances t = none →
      ¬ p.params.length > MaxArgs →
      resolveArgsWith (van.new fuel') none
        {st' with locked := t :: st'.locked} p.params 0 = (st₂, .ok args') →
      countExec t ((van.new (fuel' + 1) st' t).1).log = countExec t st'.log + 1) := by
  have hfrozen : ∀ (fuel' : Nat) (st' st₂ : RState) (args' : List Value),
      lookupTy st'.instances t = none →
      resolveArgsWith (van.new fuel') none
        {st' with locked := t :: st'.locked} p.params 0 = (st₂, .ok args') →
      lookupTy st₂.instances t = none ∧
      countExec t st₂.log = countExec t st'.log := by
    intro fuel' st' st₂ args' hn hr
    have hstep : StepOK t ({st' with locked := t :: st'.locked}) st₂ := by
      have := stepOK_resolveArgsWith t (van.new fuel')
        (stepOK_new t van p hp hs fuel') none p.params
        ({st' with locked := t :: st'.locked}) 0
      rwa [hr] at this
    have hfz := hstep.locked_frozen (List.mem_cons_self t st'.locked)
    exact ⟨hfz.1.trans hn, hfz.2⟩
  obtain ⟨hi₁, hc₁⟩ := hfrozen fuel st st₁ args hnone hres
  have heq := Van.new_singleton_construct van t p fuel st st₁ args hp hs hnl hnone hlen hres
  rw [hfail] at heq
  refine ⟨by rw [heq], by rw [heq]; exact hi₁, ?_, ?_⟩
  · rw [heq]
    show countExec t (st₁.log ++ [⟨t, countExec t st₁.log, .error e⟩]) = countExec t st.log + 1
    rw [countExec_append, countExec_single, if_pos rfl, hc₁]
  · intro fuel' st' st₂ args' hnl' hnone' hlen' hres'
    obtain ⟨hi₂, hc₂⟩ := hfrozen fuel' st' st₂ args' hnone' hres'
    have heq' := Van.new_singleton_construct van t p fuel' st' st₂ args' hp hs hnl' hnone' hlen' hres'
    cases hf' : p.fn args' (countExec t st₂.log) with
    | error e' =>
      rw [hf'] at heq'
      rw [heq']
      show countExec t (st₂.log ++ [⟨t, countExec t st₂.log, .error e'⟩]) = countExec t st'.log + 1
      rw [countExec_append, countExec_single, if_pos rfl, hc₂]
    | ok v =>
      rw [hf'] at heq'
      rw [heq']
      show countExec t (st₂.log ++ [⟨t, countExec t st₂.log, .ok v⟩]) = countExec t st'.log + 1
      rw [countExec_append, countExec_single, if_pos rfl, hc₂]

/-- Witness for `singleton_error_does_not_poison_slot`: the concrete bus
`wFailVan`, whose singleton constructor fails on its first execution; the
second resolution then succeeds and caches. -/
theorem singleton_error_does_not_poison_slot_witness :
    lookupTy wFailVan.providers (.iface 1) = some wFailP ∧
    wFailP.singleton = true ∧
    (wFailVan.new 5 initState (.iface 1)).2 =
      .error (.resolveFailed (.iface 1) 7) ∧
    lookupTy (wFailVan.new 5 initState (.iface 1)).1.instances (.iface 1) = none ∧
    (wFailVan.new 5 (wFailVan.new 5 initState (.iface 1)).1 (.iface 1)).2 =
      .ok (.obj 1 1) := by
  have h := singleton_error_does_not_poison_slot wFailVan (.iface 1) wFailP rfl rfl
    initState 4 ⟨[], [], [.iface 1]⟩ [] 7 (by simp [initState]) rfl (by decide) rfl rfl
  exact ⟨rfl, rfl, h.1, h.2.1, rfl⟩

/-- One invocation on the transitive chain fixture executes each of the two
non-singleton constructors exactly once, appending their two execution events
to the log. -/
theorem chainVan_invoke_log (f g : Nat → Value)
    (hr : List Value → Value × Option Nat) (st : RState) (v : Value) :
    (((chainVan f g hr).Invoke 3 st (.ptrTo chainCmdTy) v).1).log =
      (st.log ++ [⟨.iface 1, countExec (.iface 1) st.log,
                    .ok (f (countExec (.iface 1) st.log))⟩]) ++
        [⟨.iface 2,
          countExec (.iface 2) (st.log ++ [⟨.iface 1, countExec (.iface 1) st.log,
            .ok (f (countExec (.iface 1) st.log))⟩]),
          .ok (g (countExec (.iface 2) (st.log ++ [⟨.iface 1, countExec (.iface 1) st.log,
            .ok (f (countExec (.iface 1) st.log))⟩])))⟩] := rfl

theorem chainVan_invoke_counts (f g : Nat → Value)
    (hr : List Value → Value × Option Nat) (st : RState) (v : Value) :
    countExec (.iface 1) (((chainVan f g hr).Invoke 3 st (.ptrTo chainCmdTy) v).1).log =
      countExec (.iface 1) st.log + 1 ∧
    countExec (.iface 2) (((chainVan f g hr).Invoke 3 st (.ptrTo chainCmdTy) v).1).log =
      countExec (.iface 2) st.log + 1 := by
  rw [chainVan_invoke_log]
  constructor
  · rw [countExec_append, countExec_append, countExec_single, countExec_single]
    simp
  · rw [countExec_append, countExec_append, countExec_single, countExec_single]
    simp

theorem chainVan_invokeN_counts (f g : Nat → Value)
    (hr : List Value → Value × Option Nat) :
    ∀ (n : Nat) (st : RState),
      countExec (.iface 1)
        ((invokeN (chainVan f g hr) 3 (.ptrTo chainCmdTy) (.structV []) n st).log) =
        countExec (.iface 1) st.log + n ∧
      countExec (.iface 2)
        ((invokeN (chainVan f g hr) 3 (.ptrTo chainCmdTy) (.structV []) n st).log) =
        countExec (.iface 2) st.log + n
  | 0, st => ⟨rfl, rfl⟩
  | n + 1, st => by
    obtain ⟨h1, h2⟩ := chainVan_invoke_counts f g hr st (.structV [])
    obtain ⟨ih1, ih2⟩ := chainVan_invokeN_counts f g hr n
      ((chainVan f g hr).Invoke 3 st (.ptrTo chainCmdTy) (.structV [])).1
    exact ⟨by rw [invokeN, ih1, h1]; omega, by rw [invokeN, ih2, h2]; omega⟩

/-- C4: (a) for every non-singleton provider with no dependencies, each
resolution executes the constructor exactly once more — nothing is cached;
(b) on the concrete transitive chain (handler → capability 2 → capability 1,
all providers non-singleton, with arbitrary constructor behaviours), invoking
the handler `N` times executes both the direct and the transitive constructor
exactly `N` times. -/
theorem nonsingleton_executes_per_resolution :
    (∀ (van : Van) (t : Ty) (p : ProviderOpts) (fuel : Nat) (st : RState),
      lookupTy van.providers t = some p → p.singleton = false → p.params = [] →
      countExec t ((van.new (fuel + 1) st t).1).log = countExec t st.log + 1) ∧
    (∀ (f g : Nat → Value) (hr : List Value → Value × Option Nat) (N : Nat),
      countExec (.iface 1)
        ((invokeN (chainVan f g hr) 3 (.ptrTo chainCmdTy) (.structV []) N initState).log) = N ∧
      countExec (.iface 2)
        ((invokeN (chainVan f g hr) 3 (.ptrTo chainCmdTy) (.structV []) N initState).log) = N) := by
  constructor
  · intro van t p fuel st hp hsing hparams
    rw [Van.new_succ, hp]
    simp only [hsing, if_false]
    unfold constructWith
    rw [hparams]
    simp only [List.length_nil, MaxArgs]
    norm_num
    show countExec t
      ((match p.fn [] (countExec t st.log) with
        | .error e =>
          (({ st with log := st.log ++ [(⟨t, countExec t st.log, .error e⟩ : ExecEv)] } : RState),
            Except.error (RtErr.resolveFailed t e))
        | .ok v =>
          (({ st with log := st.log ++ [(⟨t, countExec t st.log, .ok v⟩ : ExecEv)] } : RState),
            Except.ok v)).1).log = countExec t st.log + 1
    cases p.fn [] (countExec t st.log) with
    | error e =>
      show countExec t (st.log ++ [(⟨t, countExec t st.log, .error e⟩ : ExecEv)]) =
        countExec t st.log + 1
      rw [countExec_append, countExec_single, if_pos rfl]
    | ok v =>
      show countExec t (st.log ++ [(⟨t, countExec t st.log, .ok v⟩ : ExecEv)]) =
        countExec t st.log + 1
      rw [countExec_append, countExec_single, if_pos rfl]
  · intro f g hr N
    obtain ⟨h1, h2⟩ := chainVan_invokeN_counts f g hr N initState
    constructor
    · simpa [initState, countExec] using h1
    · simpa [initState, countExec] using h2

/-- Witness for `nonsingleton_executes_per_resolution`: concrete constructor
behaviours and a concrete handler, invoked 5 times — both constructors run
exactly 5 times. -/
theorem nonsingleton_executes_per_resolution_witness :
    countExec (.iface 1)
      ((invokeN (chainVan (fun k => .obj 1 k) (fun k => .obj 2 k) (fun _ => (.structV [], none)))
        3 (.ptrTo chainCmdTy) (.structV []) 5 initState).log) = 5 ∧
    countExec (.iface 2)
      ((invokeN (chainVan (fun k => .obj 1 k) (fun k => .obj 2 k) (fun _ => (.structV [], none)))
        3 (.ptrTo chainCmdTy) (.structV []) 5 initState).log) = 5 :=
  (nonsingleton_executes_per_resolution.2
    (fun k => .obj 1 k) (fun k => .obj 2 k) (fun _ => (.structV [], none)) 5)

/-- C7: Handler writes to the command payload are visible to the caller
through the payload pointer after `Invoke` returns: registering the `Sum`
handler and invoking `Sum{A:1, B:2}` yields `Result == 3` post-call, with no
error. -/
theorem invoke_payload_mutation_visible :
    Van.registerHandler Van.empty sumTy sumHandler = .ok sumVan ∧
    sumVan.Invoke 3 initState (.ptrTo sumTy) (.structV [.natV 1, .natV 2, .natV 0]) =
      (initState, .structV [.natV 1, .natV 2, .natV 3], none) :=
  ⟨rfl, rfl⟩

/-- C8: `Invoke` on a pointer-to-struct payload whose pointee type has no
registered handler returns the missing-handler error value ("no handlers
found for type %s") with the state and payload untouched — the model is a
total function, so no panic is possible on this path. -/
theorem invoke_missing_handler_errors
    (van : Van) (fuel : Nat) (st : RState) (id : Nat) (fs : Fields)
    (cmdVal : Value) (h : lookupTy van.handlers (.strct id fs) = none) :
    van.Invoke fuel st (.ptrTo (.strct id fs)) cmdVal =
      (st, cmdVal, some (.noHandler (.strct id fs))) := by
  unfold Van.Invoke
  rw [if_neg (by simp [Ty.kind])]
  show (match lookupTy van.handlers (.strct id fs) with
    | none => (st, cmdVal, some (RtErr.noHandler (.strct id fs)))
    | some h =>
      if h.fnTy.params.length > MaxArgs then (st, cmdVal, some RtErr.tooManyDeps)
      else
        match van.resolve fuel (some (.ptrTo (.strct id fs), cmdVal)) st h.fnTy.params with
        | (st₁, .error e) => (st₁, cmdVal, some e)
        | (st₁, .ok args) =>
          let r := h.run args
          (st₁, r.1, r.2.map RtErr.userErr)) =
    (st, cmdVal, some (RtErr.noHandler (.strct id fs)))
  rw [h]

/-- Witness for `invoke_missing_handler_errors`: an empty bus and a command
struct with no handler. -/
theorem invoke_missing_handler_errors_witness :
    lookupTy Van.empty.handlers (.strct 10 .nil) = none ∧
    Van.empty.Invoke 1 initState (.ptrTo (.strct 10 .nil)) .nilV =
      (initState, .nilV, some (.noHandler (.strct 10 .nil))) :=
  ⟨rfl, invoke_missing_handler_errors Van.empty 1 initState 10 .nil .nilV rfl⟩

/-- C9: The `MaxArgs = 16` argument limit.  Validation side: every candidate
provider, handler, listener, or `Exec` lambda with more than `MaxArgs`
parameters is rejected with the "must have at most 16 arguments" error.
Runtime side, independently of validation: `Invoke` on a handler with more
than `MaxArgs` parameters returns "too many dependencies" without calling it;
`Van.new` on a provider with more than `MaxArgs` dependencies returns "too
many dependencies" without executing it; the `processEvent` loop skips such a
listener, logging instead of calling. -/
theorem max_args_limit_enforced :
    (∀ ft : FuncTy, ft.params.length > MaxArgs →
      validateProviderSignature ft = .error .tooManyArgs) ∧
    (∀ ft : FuncTy, ft.params.length > MaxArgs →
      validateHandlerSignature ft = .error .tooManyArgs) ∧
    (∀ ft : FuncTy, ft.params.length > MaxArgs →
      validateListenerSignature ft = .error .tooManyArgs) ∧
    (∀ ft : FuncTy, ft.params.length > MaxArgs →
      validateExecLambdaSignature ft = .error .tooManyArgs) ∧
    (∀ (van : Van) (fuel : Nat) (st : RState) (id : Nat) (fs : Fields)
        (h : HandlerSpec) (cmdVal : Value),
      lookupTy van.handlers (.strct id fs) = some h →
      h.fnTy.params.length > MaxArgs →
      van.Invoke fuel st (.ptrTo (.strct id fs)) cmdVal =
        (st, cmdVal, some .tooManyDeps)) ∧
    (∀ (van : Van) (fuel : Nat) (st : RState) (t : Ty) (p : ProviderOpts),
      lookupTy van.providers t = some p → p.singleton = false →
      p.params.length > MaxArgs →
      van.new (fuel + 1) st t = (st, .error .tooManyDeps)) ∧
    (∀ (ni : RState → Ty → RState × Except RtErr Value)
        (payload : Option (Ty × Value)) (st : RState)
        (l : ListenerSpec) (rest : List ListenerSpec) (i : Nat),
      l.fnTy.params.length > MaxArgs →
      processListenersLoop ni payload st (l :: rest) i =
        ((processListenersLoop ni payload st rest (i + 1)).1,
         .tooManyDepsFor i :: (processListenersLoop ni payload st rest (i + 1)).2.1,
         (processListenersLoop ni payload st rest (i + 1)).2.2)) := by
  refine ⟨?_, ?_, ?_, ?_, ?_, ?_, ?_⟩
  · intro ft hlen
    unfold validateProviderSignature
    rw [if_pos hlen]
  · intro ft hlen
    unfold validateHandlerSignature
    rw [if_neg (by unfold MaxArgs at hlen; omega), if_pos hlen]
  · intro ft hlen
    unfold validateListenerSignature
    rw [if_neg (by unfold MaxArgs at hlen; omega), if_pos hlen]
  · intro ft hlen
    unfold validateExecLambdaSignature
    rw [if_pos hlen]
  · intro van fuel st id fs h cmdVal hl hlen
    unfold Van.Invoke
    rw [if_neg (by simp [Ty.kind])]
    show (match lookupTy van.handlers (.strct id fs) with
      | none => (st, cmdVal, some (RtErr.noHandler (.strct id fs)))
      | some h =>
        if h.fnTy.params.length > MaxArgs then (st, cmdVal, some RtErr.tooManyDeps)
        else
          match van.resolve fuel (some (.ptrTo (.strct id fs), cmdVal)) st h.fnTy.params with
          | (st₁, .error e) => (st₁, cmdVal, some e)
          | (st₁, .ok args) =>
            let r := h.run args
            (st₁, r.1, r.2.map RtErr.userErr)) =
      (st, cmdVal, some RtErr.tooManyDeps)
    rw [hl]
    simp only [if_pos hlen]
  · intro van fuel st t p hp hsing hlen
    rw [Van.new_succ, hp]
    simp only [hsing, if_false]
    unfold constructWith
    rw [if_pos hlen]
    rfl
  · intro ni payload st l rest i hlen
    rcases hr : processListenersLoop ni payload st rest (i + 1) with ⟨st', logs, called⟩
    show processListenersLoop ni payload st (l :: rest) i =
      (st', .tooManyDepsFor i :: logs, called)
    unfold processListenersLoop
    rw [if_pos hlen, hr]

/-- Witness for `max_args_limit_enforced`: a 17-parameter function type is
rejected by each validator, and the runtime paths reject a 17-dependency
provider and handler without executing them. -/
theorem max_args_limit_enforced_witness :
    (⟨List.replicate 17 (.iface 1), [.iface 1, .errorT]⟩ : FuncTy).params.length > MaxArgs ∧
    validateProviderSignature ⟨List.replicate 17 (.iface 1), [.iface 1, .errorT]⟩ =
      .error .tooManyArgs ∧
    validateExecLambdaSignature ⟨List.replicate 17 (.iface 1), [.errorT]⟩ =
      .error .tooManyArgs ∧
    (⟨[(.iface 1, (⟨List.replicate 17 (.iface 2), fun _ k => .ok (.obj 1 k), false,
        false⟩ : ProviderOpts))], [], []⟩ : Van).new 3 initState (.iface 1) =
      (initState, .error .tooManyDeps) := by
  refine ⟨by decide, ?_, ?_, ?_⟩
  · exact max_args_limit_enforced.1 _ (by decide)
  · exact max_args_limit_enforced.2.2.2.1 _ (by decide)
  · exact max_args_limit_enforced.2.2.2.2.2.1 _ 2 initState (.iface 1) _ rfl rfl (by decide)

theorem lookupTy_cons_self {α : Type} (l : List (Ty × α)) (k : Ty) (v : α) :
    lookupTy ((k, v) :: l) k = some v := by
  simp [lookupTy]

theorem resolveParam_ctx (ni : RState → Ty → RState × Except RtErr Value)
    (payload : Option (Ty × Value)) (st : RState) :
    resolveParamWith ni payload st 0 .context = (st, .ok .ctxV) := by
  unfold resolveParamWith
  rw [if_pos ⟨rfl, rfl⟩]

theorem resolveParam_payload (ni : RState → Ty → RState × Except RtErr Value)
    (st : RState) (pt : Ty) (pv : Value) :
    resolveParamWith ni (some (pt, pv)) st 1 pt = (st, .ok pv) := by
  unfold resolveParamWith
  rw [if_neg (by simp)]
  show (if pt = pt then (st, Except.ok pv) else resolveParamLater ni st pt) = (st, .ok pv)
  rw [if_pos rfl]

/-- Resolution of the two fixed leading handler parameters
(`ctx`, `*Command`) binds the context and the payload without touching the
state. -/
theorem resolveArgs_ctx_payload (ni : RState → Ty → RState × Except RtErr Value)
    (st : RState) (pt : Ty) (pv : Value) :
    resolveArgsWith ni (some (pt, pv)) st [.context, pt] 0 =
      (st, .ok [.ctxV, pv]) := by
  unfold resolveArgsWith
  rw [resolveParam_ctx]
  show (match resolveArgsWith ni (some (pt, pv)) st [pt] 1 with
    | (st'', Except.error e) => (st'', Except.error e)
    | (st'', Except.ok vs) => (st'', Except.ok (Value.ctxV :: vs))) =
    (st, Except.ok [Value.ctxV, pv])
  unfold resolveArgsWith
  rw [resolveParam_payload]
  rfl

/-- C10: Re-registration is last-write-wins and silent.
(i) Registering a (dependency-free) provider always succeeds — there is no
duplicate check — and installs a fresh `providerOpts` at the front of the
registry; (ii) hence after registering two providers for the same capability,
lookup yields the second; (iii) registering a (dependency-free) handler
always succeeds with no duplicate check; (iv) hence after registering two
handlers for the same command type, lookup yields the second, and `Invoke`
dispatches to the second handler. -/
theorem reregistration_last_write_wins :
    (∀ (van : Van) (d : ProviderDecl) (s : Bool) (r : Nat),
      d.fnTy = ⟨[], [.iface r, .errorT]⟩ →
      Van.registerProvider van d s =
        .ok { van with providers := (.iface r, ⟨[], d.fn, s, false⟩) :: van.providers }) ∧
    (∀ (van : Van) (d₁ d₂ : ProviderDecl) (s₁ s₂ : Bool) (r : Nat),
      d₁.fnTy = ⟨[], [.iface r, .errorT]⟩ →
      d₂.fnTy = ⟨[], [.iface r, .errorT]⟩ →
      ∃ van₁ van₂,
        Van.registerProvider van d₁ s₁ = .ok van₁ ∧
        Van.registerProvider van₁ d₂ s₂ = .ok van₂ ∧
        lookupTy van₂.providers (.iface r) = some ⟨[], d₂.fn, s₂, false⟩) ∧
    (∀ (van : Van) (h : HandlerSpec) (cid : Nat) (cf : Fields),
      h.fnTy = ⟨[.context, .ptrTo (.strct cid cf)], [.errorT]⟩ →
      Van.registerHandler van (.strct cid cf) h =
        .ok { van with handlers := (.strct cid cf, h) :: van.handlers }) ∧
    (∀ (van : Van) (h₁ h₂ : HandlerSpec) (cid : Nat) (cf : Fields),
      h₁.fnTy = ⟨[.context, .ptrTo (.strct cid cf)], [.errorT]⟩ →
      h₂.fnTy = ⟨[.context, .ptrTo (.strct cid cf)], [.errorT]⟩ →
      ∃ van₁ van₂,
        Van.registerHandler van (.strct cid cf) h₁ = .ok van₁ ∧
        Van.registerHandler van₁ (.strct cid cf) h₂ = .ok van₂ ∧
        lookupTy van₂.handlers (.strct cid cf) = some h₂ ∧
        (∀ (fuel : Nat) (st : RState) (v : Value),
          van₂.Invoke fuel st (.ptrTo (.strct cid cf)) v =
            (st, (h₂.run [.ctxV, v]).1, (h₂.run [.ctxV, v]).2.map RtErr.userErr))) := by
  have hprov : ∀ (van : Van) (d : ProviderDecl) (s : Bool) (r : Nat),
      d.fnTy = ⟨[], [.iface r, .errorT]⟩ →
      Van.registerProvider van d s =
        .ok { van with providers := (.iface r, ⟨[], d.fn, s, false⟩) :: van.providers } := by
    intro van d s r hd
    cases d with
    | mk ft fn =>
      simp only at hd
      subst hd
      rfl
  have hhand : ∀ (van : Van) (h : HandlerSpec) (cid : Nat) (cf : Fields),
      h.fnTy = ⟨[.context, .ptrTo (.strct cid cf)], [.errorT]⟩ →
      Van.registerHandler van (.strct cid cf) h =
        .ok { van with handlers := (.strct cid cf, h) :: van.handlers } := by
    intro van h cid cf hh
    cases h with
    | mk ft run =>
      simp only at hh
      subst hh
      unfold Van.registerHandler
      rw [if_neg (by simp [Ty.kind])]
      have hval : validateHandlerSignature
          ⟨[.context, .ptrTo (.strct cid cf)], [.errorT]⟩ = .ok () := rfl
      dsimp only
      rw [hval]
      dsimp only [List.getD, List.get?, Option.getD, Ty.elem?, List.drop]
      rw [if_neg (fun hne => hne rfl)]
      rfl
  refine ⟨hprov, ?_, hhand, ?_⟩
  · intro van d₁ d₂ s₁ s₂ r h₁ h₂
    refine ⟨_, _, hprov van d₁ s₁ r h₁, hprov _ d₂ s₂ r h₂, ?_⟩
    exact lookupTy_cons_self _ _ _
  · intro van h₁ h₂ cid cf hv₁ hv₂
    refine ⟨_, _, hhand van h₁ cid cf hv₁, hhand _ h₂ cid cf hv₂, lookupTy_cons_self _ _ _, ?_⟩
    intro fuel st v
    unfold Van.Invoke
    rw [if_neg (by simp [Ty.kind])]
    show (match lookupTy
        ((Ty.strct cid cf, h₂) :: (Ty.strct cid cf, h₁) :: van.handlers) (Ty.strct cid cf) with
      | none => (st, v, some (RtErr.noHandler (Ty.strct cid cf)))
      | some h =>
        if h.fnTy.params.length > MaxArgs then (st, v, some RtErr.tooManyDeps)
        else
          match Van.resolve { van with handlers := (Ty.strct cid cf, h₂) :: (Ty.strct cid cf, h₁) :: van.handlers }
            fuel (some (.ptrTo (.strct cid cf), v)) st h.fnTy.params with
          | (st₁, .error e) => (st₁, v, some e)
          | (st₁, .ok args) =>
            let r := h.run args
            (st₁, r.1, r.2.map RtErr.userErr)) =
      (st, (h₂.run [.ctxV, v]).1, (h₂.run [.ctxV, v]).2.map RtErr.userErr)
    rw [lookupTy_cons_self]
    dsimp only
    rw [hv₂]
    dsimp only [List.length]
    rw [if_neg (by decide)]
    unfold Van.resolve
    rw [resolveArgs_ctx_payload]

/-- Witness for `reregistration_last_write_wins`: two concrete handlers for
the `Sum` command; the second silently replaces the first and `Invoke`
dispatches to it. -/
theorem reregistration_last_write_wins_witness :
    sumHandler.fnTy = ⟨[.context, .ptrTo (.strct 10
      (.cons true (.other 1) (.cons true (.other 1) (.cons true (.other 1) .nil))))], [.errorT]⟩ ∧
    ∃ van₁ van₂,
      Van.registerHandler Van.empty
        (.strct 10 (.cons true (.other 1) (.cons true (.other 1) (.cons true (.other 1) .nil))))
        ⟨⟨[.context, .ptrTo sumTy], [.errorT]⟩, fun _ => (.nilV, some 1)⟩ = .ok van₁ ∧
      Van.registerHandler van₁
        (.strct 10 (.cons true (.other 1) (.cons true (.other 1) (.cons true (.other 1) .nil))))
        sumHandler = .ok van₂ ∧
      lookupTy van₂.handlers
        (.strct 10 (.cons true (.other 1) (.cons true (.other 1) (.cons true (.other 1) .nil))))
        = some sumHandler :=
  ⟨rfl, by
    obtain ⟨van₁, van₂, r₁, r₂, hl, _⟩ :=
      reregistration_last_write_wins.2.2.2 Van.empty
        ⟨⟨[.context, .ptrTo sumTy], [.errorT]⟩, fun _ => (.nilV, some 1)⟩ sumHandler
        10 (.cons true (.other 1) (.cons true (.other 1) (.cons true (.other 1) .nil)))
        rfl rfl
    exact ⟨van₁, van₂, r₁, r₂, hl⟩⟩

theorem validateDependencyStruct_iff :
    ∀ fs : Fields, validateDependencyStruct fs = .ok () ↔ FieldsValid fs
  | .nil => by simp [validateDependencyStruct, FieldsValid]
  | .cons exported ty rest => by
    unfold validateDependencyStruct FieldsValid
    by_cases hex : exported = true
    · subst hex
      rw [if_neg (by simp)]
      by_cases hk : ty.kind = Kind.interface
      · rw [if_neg (by simp [hk])]
        rw [validateDependencyStruct_iff rest]
        simp [hk]
      · rw [if_pos hk]
        simp [hk]
    · have : exported = false := by
        cases exported
        · rfl
        · exact absurd rfl hex
      subst this
      rw [if_pos (by simp)]
      simp

/-- C5: Capability-set (dependency struct) parameters.
(i) `validateDependencyStruct` accepts a field list exactly when every field
is exported and of interface type; (ii) registering a provider whose
parameter is a struct with an unexported or non-interface field fails;
(iii) at resolution time a struct-typed parameter (outside the payload
position) is built by `buildStruct`, wrapping the collected field values into
a fresh aggregate; (iv) `buildStruct` on a two-capability field list obtains
each field independently, in order, through the capability-resolution path,
threading the state. -/
theorem capability_set_resolution_and_validation :
    (∀ fs : Fields, validateDependencyStruct fs = .ok () ↔ FieldsValid fs) ∧
    (∀ (van : Van) (d : ProviderDecl) (sing : Bool) (sid r : Nat) (fs : Fields),
      d.fnTy = ⟨[.strct sid fs], [.iface r, .errorT]⟩ →
      ¬ FieldsValid fs →
      ∃ e, Van.registerProvider van d sing = .error e) ∧
    (∀ (ni : RState → Ty → RState × Except RtErr Value) (st : RState)
        (i : Nat) (sid : Nat) (fs : Fields),
      resolveParamWith ni none st i (.strct sid fs) =
        (match buildStructWith ni st fs with
          | (st', Except.error e) => (st', Except.error e)
          | (st', Except.ok vs) => (st', Except.ok (Value.structV vs)))) ∧
    (∀ (ni : RState → Ty → RState × Except RtErr Value) (st st₁ st₂ : RState)
        (a b : Nat) (va vb : Value),
      ni st (.iface a) = (st₁, .ok va) →
      ni st₁ (.iface b) = (st₂, .ok vb) →
      buildStructWith ni st (.cons true (.iface a) (.cons true (.iface b) .nil)) =
        (st₂, .ok [va, vb])) := by
  refine ⟨validateDependencyStruct_iff, ?_, ?_, ?_⟩
  · intro van d sing sid r fs hd hnv
    cases d with
    | mk ft fn =>
      simp only at hd
      subst hd
      have hbad : ∃ e, validateDependencyStruct fs = .error e := by
        cases hvs : validateDependencyStruct fs with
        | ok u =>
          cases u
          exact absurd ((validateDependencyStruct_iff fs).mp hvs) hnv
        | error e => exact ⟨e, rfl⟩
      obtain ⟨e, he⟩ := hbad
      refine ⟨e, ?_⟩
      have hsig : validateProviderSignature ⟨[.strct sid fs], [.iface r, .errorT]⟩ =
          (match validateDependencyStruct fs with
           | Except.error e' => Except.error e'
           | Except.ok _ => validateDepArgsLoop 0 [] 1) := rfl
      unfold Van.registerProvider
      rw [hsig, he]
  · intro ni st i sid fs
    unfold resolveParamWith
    rw [if_neg (fun h => Ty.noConfusion h.2)]
    show resolveParamLater ni st (.strct sid fs) = _
    unfold resolveParamLater
    rw [if_neg (fun h => Ty.noConfusion h)]
    rw [if_neg (by simp [Ty.kind])]
  · intro ni st st₁ st₂ a b va vb h1 h2
    unfold buildStructWith
    rw [h1]
    show (match buildStructWith ni st₁ (.cons true (.iface b) .nil) with
      | (st'', Except.error e) => (st'', Except.error e)
      | (st'', Except.ok vs) => (st'', Except.ok (va :: vs))) = (st₂, Except.ok [va, vb])
    unfold buildStructWith
    rw [h2]
    rfl

/-- Witness for `capability_set_resolution_and_validation`: a struct with an
unexported field is rejected at provider registration, and a two-capability
struct parameter resolves to a fresh aggregate of the two provider
results. -/
theorem capability_set_resolution_and_validation_witness :
    (¬ FieldsValid (.cons false (.iface 1) .nil)) ∧
    (∃ e, Van.registerProvider Van.empty
      ⟨⟨[.strct 30 (.cons false (.iface 1) .nil)], [.iface 2, .errorT]⟩,
       fun _ k => .ok (.obj 2 k)⟩ false = .error e) ∧
    Van.registerProvider Van.empty
      ⟨⟨[.strct 30 (.cons false (.iface 1) .nil)], [.iface 2, .errorT]⟩,
       fun _ k => .ok (.obj 2 k)⟩ false = .error .unexportedField ∧
    buildStructWith (fun st _ => (st, .ok (.obj 7 0))) initState
      (.cons true (.iface 1) (.cons true (.iface 2) .nil)) =
      (initState, .ok [.obj 7 0, .obj 7 0]) := by
  refine ⟨?_, ?_, rfl, ?_⟩
  · intro h
    exact absurd h.1 (by decide)
  · exact capability_set_resolution_and_validation.2.1 Van.empty
      ⟨⟨[.strct 30 (.cons false (.iface 1) .nil)], [.iface 2, .errorT]⟩,
       fun _ k => .ok (.obj 2 k)⟩ false 30 2 (.cons false (.iface 1) .nil) rfl
      (fun h => absurd h.1 (by decide))
  · exact capability_set_resolution_and_validation.2.2.2
      (fun st _ => (st, .ok (.obj 7 0))) initState initState initState 1 2
      (.obj 7 0) (.obj 7 0) rfl rfl

/-- Counterexample to C6: a singleton provider that depends on a
context-taking provider *through a capability-set struct field* is accepted
at registration, because the `takesContext` propagation in
`registerProvider` only inspects parameters that are themselves registered
capability types — struct parameters have no entry in the provider map.
Concretely: provider `func(ctx) (iface 1, error)` is registered (with
`takesContext = true` recorded), and then the singleton provider
`func(struct{ A iface 1 }) (iface 2, error)` registers without error,
although the claim says this registration must fail. -/
theorem singleton_struct_context_registration_accepted :
    Van.registerProvider Van.empty ctxProvDecl false = .ok vanHole1 ∧
    lookupTy vanHole1.providers (.iface 1) =
      some ⟨[.context], ctxProvDecl.fn, false, true⟩ ∧
    Van.registerProvider vanHole1 holeProvDecl true = .ok vanHole2 :=
  ⟨rfl, rfl, rfl⟩

/-- C6 (amended): Singleton context rejection covers direct context
parameters and dependence through interface-typed parameters:
(i) a singleton provider taking `context.Context` directly is rejected;
(ii) a singleton provider whose interface parameter's provider has
`takesContext` set is rejected; (iii) a non-singleton provider in that
position records `takesContext = true`, so rejection propagates along chains
of interface dependencies; but (iv) a singleton provider that depends on a
context-taking provider only through a capability-set struct field is
accepted — the registration-time check does not see through struct
parameters. -/
theorem singleton_context_rejection_scope :
    (∀ (van : Van) (d : ProviderDecl) (r : Nat),
      d.fnTy = ⟨[.context], [.iface r, .errorT]⟩ →
      Van.registerProvider van d true = .error .singletonTakesContext) ∧
    (∀ (van : Van) (d : ProviderDecl) (pp : ProviderOpts) (a r : Nat),
      a ≠ r →
      lookupTy van.providers (.iface a) = some pp →
      pp.takesContext = true →
      d.fnTy = ⟨[.iface a], [.iface r, .errorT]⟩ →
      Van.registerProvider van d true = .error .singletonDepTakesContext) ∧
    (∀ (van : Van) (d : ProviderDecl) (pp : ProviderOpts) (a r : Nat),
      a ≠ r →
      lookupTy van.providers (.iface a) = some pp →
      pp.takesContext = true →
      d.fnTy = ⟨[.iface a], [.iface r, .errorT]⟩ →
      Van.registerProvider van d false =
        .ok { van with providers :=
          (.iface r, ⟨[.iface a], d.fn, false, true⟩) :: van.providers }) ∧
    (∀ (van : Van) (d : ProviderDecl) (pp : ProviderOpts) (a r sid : Nat),
      lookupTy van.providers (.iface a) = some pp →
      pp.takesContext = true →
      lookupTy van.providers (.strct sid (.cons true (.iface a) .nil)) = none →
      d.fnTy = ⟨[.strct sid (.cons true (.iface a) .nil)], [.iface r, .errorT]⟩ →
      ∃ van', Van.registerProvider van d true = .ok van') := by
  have hdepCtx : ∀ van : Van, van.validateDependency .context = .ok () := by
    intro van
    show (if (lookupTy van.providers Ty.context).isSome = true ∨ Ty.context = typeVan ∨
        Ty.context = Ty.context
      then Except.ok () else Except.error (ValErr.noProviderFor Ty.context)) = Except.ok ()
    rw [if_pos (Or.inr (Or.inr rfl))]
  have hdepIf : ∀ (van : Van) (a : Nat) (pp : ProviderOpts),
      lookupTy van.providers (.iface a) = some pp →
      van.validateDependency (.iface a) = .ok () := by
    intro van a pp hpp
    show (if (lookupTy van.providers (Ty.iface a)).isSome = true ∨ Ty.iface a = typeVan ∨
        Ty.iface a = Ty.context
      then Except.ok () else Except.error (ValErr.noProviderFor (Ty.iface a))) = Except.ok ()
    rw [if_pos (Or.inl (by rw [hpp]; rfl))]
  refine ⟨?_, ?_, ?_, ?_⟩
  · intro van d r hd
    cases d with
    | mk ft fn =>
      simp only at hd
      subst hd
      have hsig : validateProviderSignature ⟨[.context], [.iface r, .errorT]⟩ = .ok () := rfl
      unfold Van.registerProvider
      rw [hsig]
      dsimp only [List.headD]
      unfold registerProviderLoop
      rw [if_neg (fun h => Ty.noConfusion h), hdepCtx van]
      rfl
  · intro van d pp a r hne hpp htc hd
    cases d with
    | mk ft fn =>
      simp only at hd
      subst hd
      have hsig : validateProviderSignature ⟨[.iface a], [.iface r, .errorT]⟩ = .ok () := rfl
      unfold Van.registerProvider
      rw [hsig]
      dsimp only [List.headD]
      unfold registerProviderLoop
      rw [if_neg (fun h => hne (by cases h; rfl)), hdepIf van a pp hpp, hpp]
      dsimp only
      rw [htc]
      rfl
  · intro van d pp a r hne hpp htc hd
    cases d with
    | mk ft fn =>
      simp only at hd
      subst hd
      have hsig : validateProviderSignature ⟨[.iface a], [.iface r, .errorT]⟩ = .ok () := rfl
      unfold Van.registerProvider
      rw [hsig]
      dsimp only [List.headD]
      unfold registerProviderLoop
      rw [if_neg (fun h => hne (by cases h; rfl)), hdepIf van a pp hpp, hpp]
      dsimp only
      rw [htc]
      rfl
  · intro van d pp a r sid hpp htc hsn hd
    cases d with
    | mk ft fn =>
      simp only at hd
      subst hd
      have hsig : validateProviderSignature
          ⟨[.strct sid (.cons true (.iface a) .nil)], [.iface r, .errorT]⟩ = .ok () := rfl
      have hdep : van.validateDependency (.strct sid (.cons true (.iface a) .nil)) = .ok () := by
        show van.validateDependencyFields (.cons true (.iface a) .nil) = .ok ()
        show (match van.validateDependency (.iface a) with
          | Except.error e => Except.error e
          | Except.ok _ => van.validateDependencyFields .nil) = Except.ok ()
        rw [hdepIf van a pp hpp]
        rfl
      unfold Van.registerProvider
      rw [hsig]
      dsimp only [List.headD]
      unfold registerProviderLoop
      rw [if_neg (fun h => Ty.noConfusion h), hdep]
      dsimp only
      rw [hsn]
      exact ⟨_, rfl⟩

/-- Witness for `singleton_context_rejection_scope`: the concrete
registrations — a direct-context singleton is rejected, a singleton
depending on a context-taking provider through an interface is rejected,
while the struct-field route is accepted. -/
theorem singleton_context_rejection_scope_witness :
    Van.registerProvider Van.empty ctxProvDecl true = .error .singletonTakesContext ∧
    (∃ van₁, Van.registerProvider Van.empty ctxProvDecl false = .ok van₁ ∧
      Van.registerProvider van₁
        ⟨⟨[.iface 1], [.iface 2, .errorT]⟩, fun _ k => .ok (.obj 2 k)⟩ true =
        .error .singletonDepTakesContext) := by
  constructor
  · exact singleton_context_rejection_scope.1 Van.empty ctxProvDecl 1 rfl
  · refine ⟨_, rfl, ?_⟩
    exact singleton_context_rejection_scope.2.1 _
      ⟨⟨[.iface 1], [.iface 2, .errorT]⟩, fun _ k => .ok (.obj 2 k)⟩
      ⟨[.context], ctxProvDecl.fn, false, true⟩ 1 2 (by omega) rfl rfl rfl

/-- Counterexample to C2: with one registered listener whose dependency
resolution fails (so the listener "fails" in the only way a current listener
can — they have no return values), `Publish` still returns nil, not the
first-observed error: the failure is only recorded in the background
processor's log, and the listener is never called.  The claim's "the returned
error is the first-observed error among listener failures when at least one
listener fails" is therefore false on this input. -/
theorem publish_returns_nil_despite_listener_failure :
    pubVan.Publish evTy = none ∧
    pubVan.processEvent 3 initState evTy (.structV []) =
      (⟨[], [⟨.iface 1, 0, .error 7⟩], []⟩,
       [.resolveFailedFor 0 (.resolveFailed (.iface 1) 7)], []) :=
  ⟨rfl, rfl⟩

/-- Every listener is attempted by the `processEvent` loop: it either gets
called, or a log line (too-many-dependencies or resolution-failure) is
recorded for its index. -/
theorem processListenersLoop_attempts
    (ni : RState → Ty → RState × Except RtErr Value)
    (payload : Option (Ty × Value)) :
    ∀ (ls : List ListenerSpec) (st : RState) (i0 j : Nat), j < ls.length →
      (i0 + j) ∈ (processListenersLoop ni payload st ls i0).2.2 ∨
      PubLog.tooManyDepsFor (i0 + j) ∈ (processListenersLoop ni payload st ls i0).2.1 ∨
      ∃ e, PubLog.resolveFailedFor (i0 + j) e ∈
        (processListenersLoop ni payload st ls i0).2.1
  | [], _, _, j, hj => absurd hj (by simp)
  | l :: rest, st, i0, 0, _ => by
    rw [Nat.add_zero]
    unfold processListenersLoop
    by_cases h16 : l.fnTy.params.length > MaxArgs
    · rw [if_pos h16]
      exact Or.inr (Or.inl (List.mem_cons_self _ _))
    · rw [if_neg h16]
      by_cases h0 : l.fnTy.params.length = 0
      · rw [if_pos h0]
        exact Or.inl (List.mem_cons_self _ _)
      · rw [if_neg h0]
        rcases hr : resolveArgsWith ni payload st l.fnTy.params 0 with ⟨st₁, r⟩
        cases r with
        | error e => exact Or.inr (Or.inr ⟨e, List.mem_cons_self _ _⟩)
        | ok args => exact Or.inl (List.mem_cons_self _ _)
  | l :: rest, st, i0, j + 1, hj => by
    have hj' : j < rest.length := by simpa using hj
    have key : ∀ (st' : RState),
        ((i0 + 1) + j) ∈ (processListenersLoop ni payload st' rest (i0 + 1)).2.2 ∨
        PubLog.tooManyDepsFor ((i0 + 1) + j) ∈
          (processListenersLoop ni payload st' rest (i0 + 1)).2.1 ∨
        ∃ e, PubLog.resolveFailedFor ((i0 + 1) + j) e ∈
          (processListenersLoop ni payload st' rest (i0 + 1)).2.1 :=
      fun st' => processListenersLoop_attempts ni payload rest st' (i0 + 1) j hj'
    have harith : (i0 + 1) + j = i0 + (j + 1) := by omega
    unfold processListenersLoop
    by_cases h16 : l.fnTy.params.length > MaxArgs
    · rw [if_pos h16]
      rcases key st with hc | hl | ⟨e, he⟩
      · exact Or.inl (by rw [← harith]; exact hc)
      · exact Or.inr (Or.inl (by rw [← harith]; exact List.mem_cons_of_mem _ hl))
      · exact Or.inr (Or.inr ⟨e, by rw [← harith]; exact List.mem_cons_of_mem _ he⟩)
    · rw [if_neg h16]
      by_cases h0 : l.fnTy.params.length = 0
      · rw [if_pos h0]
        rcases key st with hc | hl | ⟨e, he⟩
        · exact Or.inl (by rw [← harith]; exact List.mem_cons_of_mem _ hc)
        · exact Or.inr (Or.inl (by rw [← harith]; exact hl))
        · exact Or.inr (Or.inr ⟨e, by rw [← harith]; exact he⟩)
      · rw [if_neg h0]
        rcases hr : resolveArgsWith ni payload st l.fnTy.params 0 with ⟨st₁, r⟩
        cases r with
        | error e =>
          rcases key st₁ with hc | hl | ⟨e', he⟩
          · exact Or.inl (by rw [← harith]; exact hc)
          · exact Or.inr (Or.inl (by rw [← harith]; exact List.mem_cons_of_mem _ hl))
          · exact Or.inr (Or.inr ⟨e', by rw [← harith]; exact List.mem_cons_of_mem _ he⟩)
        | ok args =>
          rcases key st₁ with hc | hl | ⟨e', he⟩
          · exact Or.inl (by rw [← harith]; exact List.mem_cons_of_mem _ hc)
          · exact Or.inr (Or.inl (by rw [← harith]; exact hl))
          · exact Or.inr (Or.inr ⟨e', by rw [← harith]; exact he⟩)

/-- C2 (amended): `Publish` is fire-and-forget.  (i) For every struct event it
returns nil immediately — regardless of listeners or their outcomes, which it
never observes, since listener processing happens in a spawned goroutine
(`processEvent`); (ii) for a non-struct event it returns the invalid-event
error; (iii) the background processor attempts every registered listener
exactly once per publication in registration order: each listener is either
called or skipped with a log line — listener dependency-resolution failures
are logged and discarded, never returned to the publisher.  (The blocking
fan-out/fan-in with first-error propagation that the claim describes is the
behaviour of the older `busImpl.Publish` variant, not of the current
implementation.) -/
theorem publish_fire_and_forget_semantics :
    (∀ (van : Van) (id : Nat) (fs : Fields), van.Publish (.strct id fs) = none) ∧
    (∀ (van : Van) (t : Ty), t.kind ≠ Kind.struct → van.Publish t = some .invalidEvent) ∧
    (∀ (van : Van) (fuel : Nat) (st : RState) (eventType : Ty) (v : Value)
        (ls : List ListenerSpec) (j : Nat),
      lookupTy van.listeners eventType = some ls → j < ls.length →
      j ∈ (van.processEvent fuel st eventType v).2.2 ∨
      PubLog.tooManyDepsFor j ∈ (van.processEvent fuel st eventType v).2.1 ∨
      ∃ e, PubLog.resolveFailedFor j e ∈ (van.processEvent fuel st eventType v).2.1) := by
  refine ⟨?_, ?_, ?_⟩
  · intro van id fs
    unfold Van.Publish
    rw [if_neg (by simp [Ty.kind])]
  · intro van t ht
    unfold Van.Publish
    rw [if_pos ht]
  · intro van fuel st eventType v ls j hls hj
    unfold Van.processEvent
    rw [hls]
    have := processListenersLoop_attempts (van.new fuel)
      (some (eventType, v)) ls st 0 j hj
    simpa using this

/-- Witness for `publish_fire_and_forget_semantics`: the concrete bus
`pubVan` — publishing the struct event returns nil, publishing a non-struct
value errors, and its single listener (whose resolution fails) is attempted:
its failure appears in the processor log. -/
theorem publish_fire_and_forget_semantics_witness :
    pubVan.Publish evTy = none ∧
    pubVan.Publish (.iface 1) = some .invalidEvent ∧
    (0 ∈ (pubVan.processEvent 3 initState evTy (.structV [])).2.2 ∨
      PubLog.tooManyDepsFor 0 ∈ (pubVan.processEvent 3 initState evTy (.structV [])).2.1 ∨
      ∃ e, PubLog.resolveFailedFor 0 e ∈
        (pubVan.processEvent 3 initState evTy (.structV [])).2.1) :=
  ⟨publish_fire_and_forget_semantics.1 pubVan 20 .nil,
   publish_fire_and_forget_semantics.2.1 pubVan (.iface 1) (by decide),
   publish_fire_and_forget_semantics.2.2 pubVan 3 initState evTy (.structV [])
     [pubListener] 0 rfl (by decide)⟩

end VanSpec
